import Mathlib

/-!
Verification development for the CueForge Qt6 show-control engine.

This file gives a shallow embedding, in Lean 4, of the core cue model of
the repository (src/src/core/Cue.{h,cpp}, src/src/core/cues/*.{h,cpp},
src/src/core/CueManager.{h,cpp}, src/src/audio/JuceAudioEngine.cpp,
src/src/audio/AudioEngineQt.cpp, src/src/audio/standalone/
JuceEngineStandalone.cpp) and proves or refutes the specified properties
over that embedding.

Modelling conventions, fixed throughout:
* `double` seconds/levels are modelled as `ℚ` (exact rationals; the claims
  under scrutiny are about control flow and clamping, not float rounding).
* `QString` is `String`; a `QColor` is carried as its hex-name string
  (`QColor::name()` form), which is all the code stores and serializes.
* `QDateTime` wall-clock fields (`createdTime_` / `modifiedTime_`) and the
  elapsed-timer internals of `WaitCue` are outside the model: they are
  wall-clock readings.  `updateModifiedTime()` is therefore a no-op here.
  None of the examined code paths branches on them.
* Qt signal emissions carry no state except the `warning` / `error`
  message signals, which the manager model records in `warnings` /
  `errors` lists; `qDebug` / `qWarning` logging is ignored (it does not
  feed back into program state).
* `QSet<QString>` members are modelled as `List String` mutated only
  through member-checked insert / removeAll, `QStringList` as
  `List String`.
* Deferred work scheduled on timers (`QTimer::singleShot`, the wait-cue
  countdown, auto-continue) is modelled as events that are delivered by
  separate step functions, not inside the call that schedules them;
  synchronous signal delivery (a direct-connection `emit` reaching its
  slot before the emitting statement returns) *is* modelled inline,
  because the group-completion behaviour depends on it.
-/

namespace CueForge

/-- `CueType` from Cue.h. -/
inductive CueType where
  | audio | video | midi | group | fade | wait
  | start | stop | goto | pause | load | reset
  | arm | disarm | devamp | memo | text | network | light
deriving DecidableEq, Repr

/-- `CueStatus` from Cue.h. -/
inductive CueStatus where
  | idle | loaded | running | paused | stopped | finished | broken
deriving DecidableEq, Repr

/-- `GroupCue::GroupMode` from GroupCue.h. -/
inductive GroupMode where
  | sequential | parallel
deriving DecidableEq, Repr

/-- `cueTypeToString` (Cue.cpp). -/
def cueTypeToString : CueType → String
  | .audio => "Audio" | .video => "Video" | .midi => "MIDI"
  | .group => "Group" | .fade => "Fade" | .wait => "Wait"
  | .start => "Start" | .stop => "Stop" | .goto => "Goto"
  | .pause => "Pause" | .load => "Load" | .reset => "Reset"
  | .arm => "Arm" | .disarm => "Disarm" | .devamp => "Devamp"
  | .memo => "Memo" | .text => "Text" | .network => "Network"
  | .light => "Light"

/-- `stringToCueType` (Cue.cpp): case-insensitive, defaults to Audio. -/
def stringToCueType (str : String) : CueType :=
  let lower := str.toLower
  if lower = "audio" then .audio
  else if lower = "video" then .video
  else if lower = "midi" then .midi
  else if lower = "group" then .group
  else if lower = "fade" then .fade
  else if lower = "wait" then .wait
  else if lower = "start" then .start
  else if lower = "stop" then .stop
  else if lower = "goto" then .goto
  else if lower = "pause" then .pause
  else if lower = "load" then .load
  else if lower = "reset" then .reset
  else if lower = "arm" then .arm
  else if lower = "disarm" then .disarm
  else if lower = "devamp" then .devamp
  else if lower = "memo" then .memo
  else if lower = "text" then .text
  else if lower = "network" then .network
  else if lower = "light" then .light
  else .audio

/-- The fields of the abstract base class `Cue` (Cue.h), minus the
`QDateTime` timestamps (see the module conventions). -/
structure CueBase where
  id : String
  type : CueType
  number : String
  name : String
  duration : ℚ
  preWait : ℚ
  postWait : ℚ
  continueMode : Bool
  color : String
  notes : String
  status : CueStatus
  isArmed : Bool
  isBroken : Bool
  targetCueId : String
deriving DecidableEq, Repr

/-- The `Cue::Cue` constructor state (Cue.cpp lines 84-101); the fresh
UUID is a parameter of the model. -/
def CueBase.fresh (newId : String) (type : CueType) : CueBase :=
  { id := newId, type := type, number := "1", name := "New Cue",
    duration := 0, preWait := 0, postWait := 0, continueMode := false,
    color := "#ffffff", notes := "", status := .loaded,
    isArmed := true, isBroken := false, targetCueId := "" }

/-- `Cue::setNumber`. -/
def CueBase.setNumber (b : CueBase) (number : String) : CueBase :=
  if b.number ≠ number then { b with number := number } else b

/-- `Cue::setName`. -/
def CueBase.setName (b : CueBase) (name : String) : CueBase :=
  if b.name ≠ name then { b with name := name } else b

/-- `Cue::setDuration`: clamps below at 0, ignores changes of at most
0.001 s. -/
def CueBase.setDuration (b : CueBase) (seconds : ℚ) : CueBase :=
  let s := max 0 seconds
  if |b.duration - s| > 1/1000 then { b with duration := s } else b

/-- `Cue::setPreWait`. -/
def CueBase.setPreWait (b : CueBase) (seconds : ℚ) : CueBase :=
  let s := max 0 seconds
  if |b.preWait - s| > 1/1000 then { b with preWait := s } else b

/-- `Cue::setPostWait`. -/
def CueBase.setPostWait (b : CueBase) (seconds : ℚ) : CueBase :=
  let s := max 0 seconds
  if |b.postWait - s| > 1/1000 then { b with postWait := s } else b

/-- `Cue::setContinueMode`. -/
def CueBase.setContinueMode (b : CueBase) (enabled : Bool) : CueBase :=
  if b.continueMode ≠ enabled then { b with continueMode := enabled } else b

/-- `Cue::setColor` (the color is carried as its hex name). -/
def CueBase.setColor (b : CueBase) (color : String) : CueBase :=
  if b.color ≠ color then { b with color := color } else b

/-- `Cue::setNotes`. -/
def CueBase.setNotes (b : CueBase) (notes : String) : CueBase :=
  if b.notes ≠ notes then { b with notes := notes } else b

/-- `Cue::setStatus`. -/
def CueBase.setStatus (b : CueBase) (status : CueStatus) : CueBase :=
  if b.status ≠ status then { b with status := status } else b

/-- `Cue::setArmed`. -/
def CueBase.setArmed (b : CueBase) (armed : Bool) : CueBase :=
  if b.isArmed ≠ armed then { b with isArmed := armed } else b

/-- `Cue::setIsBroken`: turning the flag on also forces status Broken. -/
def CueBase.setIsBroken (b : CueBase) (broken : Bool) : CueBase :=
  if b.isBroken ≠ broken then
    let b := { b with isBroken := broken }
    if broken then b.setStatus .broken else b
  else b

/-- `Cue::setTargetCueId`. -/
def CueBase.setTargetCueId (b : CueBase) (tid : String) : CueBase :=
  if b.targetCueId ≠ tid then { b with targetCueId := tid } else b

/-- `Cue::canExecute` (Cue.cpp lines 270-273):
`isArmed_ && !isBroken_ && status_ != CueStatus::Running`. -/
def CueBase.canExecute (b : CueBase) : Bool :=
  b.isArmed && !b.isBroken && !(decide (b.status = CueStatus.running))

/-- The per-variant state of `AudioCue` (AudioCue.h).  The last four
fields are the oracle for the external audio-engine boundary (what
`AudioEngineQt` would answer during `execute()`): whether an engine is
connected and initialized, the id `createPlayer` would return, the
duration the engine reports, and whether `play` succeeds. -/
structure AudioExtra where
  filePath : String
  fileInfoValid : Bool
  fileInfoDuration : ℚ
  volume : ℚ
  pan : ℚ
  rate : ℚ
  startTime : ℚ
  endTime : ℚ
  loopEnabled : Bool
  matrixRouting : List (String × ℚ)
  audioOutputPatch : String
  playerId : Int
  engineConnected : Bool
  engineReady : Bool
  engineCreatePlayerId : Int
  engineLoadedDuration : ℚ
  enginePlayOk : Bool
deriving DecidableEq, Repr

/-- A cue object: the base-class state plus the concrete subclass state.
Only the four cue classes implemented in the repository exist
(`CueManager::createCue` refuses every other `CueType`). -/
inductive Cue where
  /-- An `AudioCue`. -/
  | audioCue (base : CueBase) (a : AudioExtra)
  /-- A `WaitCue`; `remainingTime` is its transient countdown field. -/
  | waitCue (base : CueBase) (remainingTime : ℚ)
  /-- A `ControlCue`; its `ControlType` is `base.type`. -/
  | controlCue (base : CueBase) (fadeTime : ℚ)
  /-- A `GroupCue` with its owned children, sequential cursor and
  transient `activeChildren_` set. -/
  | groupCue (base : CueBase) (mode : GroupMode) (children : List Cue)
      (currentChildIndex : Int) (activeChildren : List String)

/-- The base-class subobject of a cue. -/
def Cue.base : Cue → CueBase
  | .audioCue b _ => b
  | .waitCue b _ => b
  | .controlCue b _ => b
  | .groupCue b _ _ _ _ => b

/-- Rebuild a cue with its base-class subobject transformed (subclass
fields untouched) — the shape of every base-class setter call. -/
def Cue.withBase (f : CueBase → CueBase) : Cue → Cue
  | .audioCue b a => .audioCue (f b) a
  | .waitCue b r => .waitCue (f b) r
  | .controlCue b ft => .controlCue (f b) ft
  | .groupCue b m ch i act => .groupCue (f b) m ch i act

/-- `Cue::id()`. -/
def Cue.cid (c : Cue) : String := c.base.id

/-- `CueManager::getCue`: first cue in the top-level list with the id. -/
def getCue (cues : List Cue) (cueId : String) : Option Cue :=
  cues.find? (fun c => c.cid == cueId)

/-- `Cue::targetCue` (Cue.cpp lines 220-227), with the owning manager in
scope (every cue the claims touch lives under a manager): resolves
`targetCueId_` through `CueManager::getCue`, `none` when the id is empty
or dangles. -/
def targetCue (cues : List Cue) (b : CueBase) : Option Cue :=
  if b.targetCueId ≠ "" then getCue cues b.targetCueId else none

/-- `Cue::hasValidTarget` (Cue.cpp lines 229-232). -/
def hasValidTarget (cues : List Cue) (b : CueBase) : Bool :=
  (targetCue cues b).isSome

mutual

/-- `canExecute` virtual dispatch:
* `AudioCue::canExecute` is declared in AudioCue.h but its definition is
  missing from src/.  Modelled from the spec: "`canExecute()`: `isArmed
  && !isBroken && status != Running`, and per-type: AudioCue additionally
  requires a valid loaded file" — base plus `hasValidFile()`.
* `WaitCue::canExecute` is defined inline in WaitCue.h line 30:
  `{ return true; }` — unconditionally true.
* `ControlCue::canExecute` (ControlCue.cpp lines 127-138): base, and a
  valid target unless the type is Pause.
* `GroupCue::canExecute` (GroupCue.cpp lines 184-197): base, and some
  child with `canExecute()`. -/
def Cue.canExecute (cues : List Cue) : Cue → Bool
  | .audioCue b a => b.canExecute && a.fileInfoValid
  | .waitCue _ _ => true
  | .controlCue b _ =>
      b.canExecute && (decide (b.type = CueType.pause) || hasValidTarget cues b)
  | .groupCue b _ children _ _ =>
      b.canExecute && anyChildCanExecute cues children

/-- The `for (child : children_) if (child->canExecute()) return true`
loop of `GroupCue::canExecute`. -/
def anyChildCanExecute (cues : List Cue) : List Cue → Bool
  | [] => false
  | c :: cs => c.canExecute cues || anyChildCanExecute cues cs

end

/-! ## Per-cue stop / pause / resume (virtual dispatch)

These never consult the manager, so they are plain structural functions
on a cue. -/

mutual

/-- `stop(fadeTime)` dispatch:
* `AudioCue::stop` (AudioCue.cpp 266-284): no-op when already Loaded,
  otherwise releases the player (when an engine is connected and a player
  is live) and goes to Stopped;
* `WaitCue::stop` (WaitCue.cpp 59-68): clears the countdown, Loaded;
* `ControlCue::stop` (ControlCue.cpp 121-125): Loaded;
* `GroupCue::stop` (GroupCue.cpp 144-158): stops every child in
  `activeChildren_`, clears the set and the cursor, Loaded. -/
def cueStop (fadeTime : ℚ) : Cue → Cue
  | .audioCue b a =>
      if b.status = .loaded then .audioCue b a
      else
        let a := if a.engineConnected && decide (0 ≤ a.playerId)
                 then { a with playerId := -1 } else a
        .audioCue (b.setStatus .stopped) a
  | .waitCue b _ => .waitCue (b.setStatus .loaded) 0
  | .controlCue b ft => .controlCue (b.setStatus .loaded) ft
  | .groupCue b m children _ act =>
      .groupCue (b.setStatus .loaded) m (stopActiveChildren fadeTime act children)
        (-1) []

/-- The `for (childId : activeChildren_) getChild(childId)->stop(...)`
loop of `GroupCue::stop`, as the equivalent in-place map (each stop is
local to its child, so the set-iteration order is immaterial). -/
def stopActiveChildren (fadeTime : ℚ) (act : List String) :
    List Cue → List Cue
  | [] => []
  | c :: cs =>
      (if act.contains c.cid then cueStop fadeTime c else c) ::
        stopActiveChildren fadeTime act cs

end

mutual

/-- `pause()` dispatch: base `Cue::pause` (Running → Paused) for control
cues; `AudioCue::pause` / `WaitCue::pause` guard on Running themselves;
`GroupCue::pause` pauses the active children and goes to Paused
unconditionally. -/
def cuePause : Cue → Cue
  | .audioCue b a =>
      if b.status ≠ .running then .audioCue b a
      else .audioCue (b.setStatus .paused) a
  | .waitCue b r =>
      if b.status = .running then .waitCue (b.setStatus .paused) r
      else .waitCue b r
  | .controlCue b ft =>
      if b.status = .running then .controlCue (b.setStatus .paused) ft
      else .controlCue b ft
  | .groupCue b m children ci act =>
      .groupCue (b.setStatus .paused) m (pauseActiveChildren act children) ci act

/-- The active-children loop of `GroupCue::pause`. -/
def pauseActiveChildren (act : List String) : List Cue → List Cue
  | [] => []
  | c :: cs =>
      (if act.contains c.cid then cuePause c else c) ::
        pauseActiveChildren act cs

end

mutual

/-- `resume()` dispatch, symmetric to `cuePause`. -/
def cueResume : Cue → Cue
  | .audioCue b a =>
      if b.status ≠ .paused then .audioCue b a
      else .audioCue (b.setStatus .running) a
  | .waitCue b r =>
      if b.status = .paused then .waitCue (b.setStatus .running) r
      else .waitCue b r
  | .controlCue b ft =>
      if b.status = .paused then .controlCue (b.setStatus .running) ft
      else .controlCue b ft
  | .groupCue b m children ci act =>
      .groupCue (b.setStatus .running) m (resumeActiveChildren act children)
        ci act

/-- The active-children loop of `GroupCue::resume`. -/
def resumeActiveChildren (act : List String) : List Cue → List Cue
  | [] => []
  | c :: cs =>
      (if act.contains c.cid then cueResume c else c) ::
        resumeActiveChildren act cs

end

/-! ## Addressing helpers -/

/-- Replace the element at an index (out-of-range: unchanged). -/
def modifyIdx : List α → Nat → (α → α) → List α
  | [], _, _ => []
  | a :: l, 0, f => f a :: l
  | a :: l, n + 1, f => a :: modifyIdx l n f

/-- Read the cue at a path: head = top-level index, tail descends into
group children (the C++ object graph's pointer chain). -/
def getAtPath : List Cue → List Nat → Option Cue
  | _, [] => none
  | cues, [i] => cues.get? i
  | cues, i :: rest =>
      match cues.get? i with
      | some (.groupCue _ _ children _ _) => getAtPath children rest
      | _ => none

/-- In-place mutation of the cue object at a path (the C++ code mutates
one heap object; enclosing group nodes keep all their other fields). -/
def setAtPath : List Cue → List Nat → (Cue → Cue) → List Cue
  | cues, [], _ => cues
  | cues, [i], f => modifyIdx cues i f
  | cues, i :: rest, f =>
      modifyIdx cues i (fun c =>
        match c with
        | .groupCue b m children ci act =>
            .groupCue b m (setAtPath children rest f) ci act
        | other => other)

/-- Mutate the top-level cue found by `getCue(cueId)`.  Ids are unique in
every state the program builds (fresh UUIDs), so mapping over all
matches coincides with mutating the single object `getCue` returns. -/
def updateCueById (cues : List Cue) (cueId : String) (f : Cue → Cue) :
    List Cue :=
  cues.map (fun c => if c.cid == cueId then f c else c)

/-- `QSet::insert` on the insertion-ordered list model. -/
def qsetInsert (l : List String) (x : String) : List String :=
  if l.contains x then l else l ++ [x]

/-- `QSet::remove` / `QStringList::removeAll`. -/
def qsetRemove (l : List String) (x : String) : List String :=
  l.filter (fun y => y != x)

/-! ## CueManager state -/

/-- The `CueManager` member state (CueManager.h lines 141-148), plus the
record of emitted `warning` / `error` signal messages.  The clipboard is
omitted: no examined claim touches copy / cut / paste. -/
structure MState where
  cues : List Cue
  selectedCueIds : List String
  activeCues : List String
  expandedGroups : List String
  standByCueId : String
  isPaused : Bool
  hasUnsavedChanges : Bool
  warnings : List String
  errors : List String

/-- `emit warning(msg)`. -/
def MState.warn (st : MState) (msg : String) : MState :=
  { st with warnings := st.warnings ++ [msg] }

/-- `emit error(msg)`. -/
def MState.err (st : MState) (msg : String) : MState :=
  { st with errors := st.errors ++ [msg] }

/-- `CueManager::markUnsaved`. -/
def MState.markUnsaved (st : MState) : MState :=
  { st with hasUnsavedChanges := true }

/-- `CueManager::setStandByCue` (CueManager.cpp 579-589). -/
def setStandByCue (st : MState) (cueId : String) : MState :=
  if st.standByCueId = cueId then st else { st with standByCueId := cueId }

/-- `CueManager::getCueIndex`: index of the cue, -1 when absent. -/
def getCueIndex (cues : List Cue) (cueId : String) : Int :=
  match cues.findIdx? (fun c => c.cid == cueId) with
  | some i => (i : Int)
  | none => -1

/-- `CueManager::nextCue` (CueManager.cpp 596-606). -/
def managerNextCue (st : MState) : MState :=
  if st.cues.isEmpty then st
  else
    let currentIndex := getCueIndex st.cues st.standByCueId
    if currentIndex < (st.cues.length : Int) - 1 then
      match st.cues.get? (currentIndex + 1).toNat with
      | some c => setStandByCue st c.cid
      | none => st
    else st

/-- `CueManager::previousCue` (CueManager.cpp 608-621). -/
def managerPreviousCue (st : MState) : MState :=
  if st.cues.isEmpty then st
  else
    let currentIndex := getCueIndex st.cues st.standByCueId
    if currentIndex > 0 then
      match st.cues.get? (currentIndex - 1).toNat with
      | some c => setStandByCue st c.cid
      | none => st
    else if currentIndex < 0 then
      match st.cues.get? 0 with
      | some c => setStandByCue st c.cid
      | none => st
    else st

/-- `CueManager::pause` (CueManager.cpp 525-549): global pause toggle
over the active set. -/
def managerPause (st : MState) : MState :=
  if st.activeCues.isEmpty then st
  else
    let p := !st.isPaused
    let cues := st.activeCues.foldl (fun cs cueId =>
      match getCue cs cueId with
      | none => cs
      | some _ =>
          updateCueById cs cueId (fun c =>
            if p then (cuePause c).withBase (·.setStatus .paused)
            else (cueResume c).withBase (·.setStatus .running))) st.cues
    { st with cues := cues, isPaused := p }

/-! ## Execution semantics

`execCue fuel st p` runs `cue->execute()` on the cue at path `p`,
returning the new state, the bool `execute()` returned, and whether the
call synchronously emitted `executionFinished` (a direct-connection Qt
signal reaches its slots before the emitting statement returns, which is
how a ControlCue child finishing feeds straight back into its group's
`onChildFinished` during the start loop).  `fuel` bounds re-entrancy
(Start-type control cues call `execute()` on their target); every theorem
below supplies fuel that is never exhausted — an exhausted call returns
its input unchanged with `false`s.  Consecutive synchronous emissions of
the same `executionFinished` signal collapse to one delivery in the
model (the only double emission in the code, GroupCue.cpp 329-332
directly after a mid-loop finish, re-delivers to slots that are then
no-ops). -/

mutual

/-- `Cue::execute()` virtual dispatch at a path:
`AudioCue::execute` (AudioCue.cpp 201-264), `WaitCue::execute`
(WaitCue.cpp 39-57; note: no `canExecute` gate, only the zero-duration
check), `ControlCue::execute` (ControlCue.cpp 73-119), `GroupCue::execute`
(GroupCue.cpp 121-142). -/
def execCue : Nat → MState → List Nat → MState × Bool × Bool
  | 0, st, _ => (st, false, false)
  | Nat.succ n, st, p =>
    match getAtPath st.cues p with
    | none => (st, false, false)
    | some (.audioCue b a) =>
        if ¬ (Cue.audioCue b a).canExecute st.cues then (st, false, false)
        else if a.filePath = "" then (st, false, false)
        else if ¬ a.engineConnected then (st, false, false)
        else if ¬ a.engineReady then (st, false, false)
        else
          let a1 := if decide (0 ≤ a.playerId) then { a with playerId := -1 } else a
          let pid := a.engineCreatePlayerId
          let a2 := { a1 with playerId := pid }
          if pid < 0 then
            ({ st with cues := setAtPath st.cues p (fun _ => .audioCue b a2) },
             false, false)
          else
            let d := a.engineLoadedDuration
            let b3 := if 0 < d then b.setDuration d else b
            let a3 := if 0 < d then
                { a2 with fileInfoDuration := d, fileInfoValid := true } else a2
            if ¬ a.enginePlayOk then
              ({ st with cues := setAtPath st.cues p (fun _ => .audioCue b3 { a3 with playerId := -1 }) },
               false, false)
            else
              ({ st with cues := setAtPath st.cues p (fun _ => .audioCue (b3.setStatus .running) a3) },
               true, false)
    | some (.waitCue b _) =>
        if b.duration ≤ 0 then (st.warn "Wait cue has zero duration", false, false)
        else
          ({ st with cues := setAtPath st.cues p (fun c =>
              match c with
              | .waitCue b2 _ => .waitCue (b2.setStatus .running) b2.duration
              | other => other) },
           true, false)
    | some (.controlCue b ft) =>
        if ¬ (Cue.controlCue b ft).canExecute st.cues then (st, false, false)
        else
          let st1 := { st with cues := setAtPath st.cues p (·.withBase (·.setStatus .running)) }
          match b.type with
          | .start | .stop | .goto | .pause | .load
          | .reset | .arm | .disarm | .devamp =>
              let st2 := controlPerform n st1 b ft
              let st3 := { st2 with cues := setAtPath st2.cues p (·.withBase (·.setStatus .finished)) }
              (st3, true, true)
          | _ =>
              let st2 := st1.warn "Unknown control cue type"
              ({ st2 with cues := setAtPath st2.cues p (·.withBase (·.setStatus .loaded)) },
               false, false)
    | some (.groupCue b m children ci act) =>
        if ¬ (Cue.groupCue b m children ci act).canExecute st.cues then
          (st, false, false)
        else
          let st1 := { st with cues := setAtPath st.cues p (fun c =>
              match c with
              | .groupCue b2 m2 ch2 _ _ =>
                  .groupCue (b2.setStatus .running) m2 ch2 (-1) []
              | other => other) }
          if m = .sequential then
            let r := execSeqNext n st1 p
            (r.1, true, r.2)
          else
            let r := execParFrom n st1 p 0 false
            (r.1, true, r.2)

/-- `GroupCue::executeNextChild` (GroupCue.cpp 286-310).  The second
component reports whether the group emitted its own
`executionFinished`. -/
def execSeqNext : Nat → MState → List Nat → MState × Bool
  | 0, st, _ => (st, false)
  | Nat.succ n, st, p =>
    match getAtPath st.cues p with
    | some (.groupCue _ _ children ci _) =>
        let ci' := ci + 1
        let st1 := { st with cues := setAtPath st.cues p (fun c =>
            match c with
            | .groupCue b2 m2 ch2 _ act2 => .groupCue b2 m2 ch2 ci' act2
            | other => other) }
        if (children.length : Int) ≤ ci' then
          ({ st1 with cues := setAtPath st1.cues p (·.withBase (·.setStatus .finished)) },
           true)
        else
          match children.get? ci'.toNat with
          | none => (st1, false)
          | some child =>
              if ¬ child.canExecute st1.cues then execSeqNext n st1 p
              else
                let st2 := { st1 with cues := setAtPath st1.cues p (fun c =>
                    match c with
                    | .groupCue b2 m2 ch2 ci2 act2 =>
                        .groupCue b2 m2 ch2 ci2 (qsetInsert act2 child.cid)
                    | other => other) }
                let r := execCue n st2 (p ++ [ci'.toNat])
                if r.2.2 then groupChildFinished n r.1 p child.cid
                else (r.1, false)
    | _ => (st, false)

/-- The loop of `GroupCue::executeAllChildren` (GroupCue.cpp 312-333)
from child index `i`, with the trailing empty-set check; `emitted`
accumulates whether the group already emitted `executionFinished`
mid-loop (through a child that completed synchronously). -/
def execParFrom : Nat → MState → List Nat → Nat → Bool → MState × Bool
  | 0, st, _, _, emitted => (st, emitted)
  | Nat.succ n, st, p, i, emitted =>
    match getAtPath st.cues p with
    | some (.groupCue _ _ children _ act) =>
        match children.get? i with
        | some child =>
            if ¬ child.canExecute st.cues then execParFrom n st p (i + 1) emitted
            else
              let st1 := { st with cues := setAtPath st.cues p (fun c =>
                  match c with
                  | .groupCue b2 m2 ch2 ci2 act2 =>
                      .groupCue b2 m2 ch2 ci2 (qsetInsert act2 child.cid)
                  | other => other) }
              let r := execCue n st1 (p ++ [i])
              if r.2.2 then
                let r2 := groupChildFinished n r.1 p child.cid
                execParFrom n r2.1 p (i + 1) (emitted || r2.2)
              else execParFrom n r.1 p (i + 1) emitted
        | none =>
            if act.isEmpty then
              ({ st with cues := setAtPath st.cues p (·.withBase (·.setStatus .finished)) },
               true)
            else (st, emitted)
    | _ => (st, emitted)

/-- `GroupCue::onChildFinished` (GroupCue.cpp 335-349). -/
def groupChildFinished : Nat → MState → List Nat → String → MState × Bool
  | 0, st, _, _ => (st, false)
  | Nat.succ n, st, p, childId =>
    let st1 := { st with cues := setAtPath st.cues p (fun c =>
        match c with
        | .groupCue b2 m2 ch2 ci2 act2 =>
            .groupCue b2 m2 ch2 ci2 (qsetRemove act2 childId)
        | other => other) }
    match getAtPath st1.cues p with
    | some (.groupCue _ m _ _ act) =>
        if m = .sequential then execSeqNext n st1 p
        else if act.isEmpty then
          ({ st1 with cues := setAtPath st1.cues p (·.withBase (·.setStatus .finished)) },
           true)
        else (st1, false)
    | _ => (st1, false)

/-- The per-`ControlType` operations `ControlCue::executeStart` …
`executeDevamp` (ControlCue.cpp 193-326), acting through the manager's
target lookup. -/
def controlPerform : Nat → MState → CueBase → ℚ → MState
  | 0, st, _, _ => st
  | Nat.succ n, st, b, fadeTime =>
    match b.type with
    | .start =>
        match targetCue st.cues b with
        | none => st.err "Cannot start - target cue not found"
        | some t =>
            if t.canExecute st.cues then
              match st.cues.findIdx? (fun c => c.cid == t.cid) with
              | some i => (execCue n st [i]).1
              | none => st
            else st.warn ("Cannot start target cue: " ++ t.base.name)
    | .stop =>
        match targetCue st.cues b with
        | none => st.err "Cannot stop - target cue not found"
        | some t =>
            { st with cues := updateCueById st.cues t.cid (cueStop fadeTime) }
    | .goto =>
        match targetCue st.cues b with
        | none => st.err "Cannot goto - target cue not found"
        | some t => setStandByCue st t.cid
    | .pause =>
        if hasValidTarget st.cues b then
          match targetCue st.cues b with
          | some t =>
              if t.base.status = .running then
                { st with cues := updateCueById st.cues t.cid cuePause }
              else if t.base.status = .paused then
                { st with cues := updateCueById st.cues t.cid cueResume }
              else st
          | none => st
        else managerPause st
    | .load =>
        match targetCue st.cues b with
        | none => st.err "Cannot load - target cue not found"
        | some t => setStandByCue st t.cid
    | .reset =>
        match targetCue st.cues b with
        | none => st.err "Cannot reset - target cue not found"
        | some t =>
            let st1 := { st with cues := updateCueById st.cues t.cid (cueStop 0) }
            { st1 with cues := updateCueById st1.cues t.cid (·.withBase (·.setStatus .loaded)) }
    | .arm =>
        match targetCue st.cues b with
        | none => st.err "Cannot arm - target cue not found"
        | some t =>
            { st with cues := updateCueById st.cues t.cid (·.withBase (·.setArmed true)) }
    | .disarm =>
        match targetCue st.cues b with
        | none => st.err "Cannot disarm - target cue not found"
        | some t =>
            { st with cues := updateCueById st.cues t.cid (·.withBase (·.setArmed false)) }
    | .devamp =>
        match targetCue st.cues b with
        | none => st.err "Cannot devamp - target cue not found"
        | some t =>
            let devampTime := if 0 < fadeTime then fadeTime else 1/2
            { st with cues := updateCueById st.cues t.cid (cueStop devampTime) }
    | _ => st

end

/-- `CueManager::executeCue` (CueManager.cpp 857-880) on the top-level
cue with the given id; a synchronous `executionFinished` emission is
delivered to `CueManager::onCueFinished` (the slot connected at
creation). -/
def managerOnCueFinished (st : MState) (cueId : String) : MState :=
  match getCue st.cues cueId with
  | none => st
  | some cue =>
      let st1 := { st with
        activeCues := qsetRemove st.activeCues cueId,
        cues := updateCueById st.cues cueId (·.withBase (·.setStatus .finished)) }
      if cueId = st.standByCueId ∧ cue.base.continueMode then
        managerNextCue st1
      else st1

/-- `CueManager::executeCue`, addressed by id (the caller holds a
pointer to a top-level cue).  The deferred auto-continue `go()` of
`onCueFinished` is a timer event, outside this call. -/
def managerExecuteCue (fuel : Nat) (st : MState) (cueId : String) : MState :=
  match st.cues.findIdx? (fun c => c.cid == cueId) with
  | none => st
  | some i =>
      match st.cues.get? i with
      | none => st
      | some cue =>
          if ¬ cue.canExecute st.cues then st
          else
            let st1 := { st with activeCues := qsetInsert st.activeCues cueId }
            let st2 := { st1 with cues := setAtPath st1.cues [i] (·.withBase (·.setStatus .running)) }
            let r := execCue fuel st2 [i]
            let st4 := if r.2.2 then managerOnCueFinished r.1 cueId else r.1
            if r.2.1 then st4
            else
              MState.err
                { st4 with
                  activeCues := qsetRemove st4.activeCues cueId,
                  cues := updateCueById st4.cues cueId (·.withBase (·.setStatus .loaded)) }
                ("Failed to execute cue: " ++ cue.base.name)

/-- `CueManager::go` (CueManager.cpp 472-492). -/
def go (fuel : Nat) (st : MState) : MState × Bool :=
  match getCue st.cues st.standByCueId with
  | none => (st.warn "No standby cue set", false)
  | some standbyCue =>
      if ¬ standbyCue.canExecute st.cues then
        (st.warn ("Cannot execute cue: " ++ standbyCue.base.name), false)
      else
        let st1 := managerExecuteCue fuel st standbyCue.cid
        let cm := match getCue st1.cues standbyCue.cid with
                  | some c => c.base.continueMode
                  | none => standbyCue.base.continueMode
        let st2 := if cm then managerNextCue st1 else st1
        (st2, true)

/-- `CueManager::stopCue` (CueManager.cpp 507-523). -/
def managerStopCue (st : MState) (cueId : String) (fadeTime : ℚ) : MState :=
  match getCue st.cues cueId with
  | none => st
  | some _ =>
      let st1 := { st with cues := updateCueById st.cues cueId (cueStop fadeTime) }
      let st2 := { st1 with activeCues := qsetRemove st1.activeCues cueId }
      { st2 with cues := updateCueById st2.cues cueId (·.withBase (·.setStatus .loaded)) }

/-- `CueManager::stop` (CueManager.cpp 494-505). -/
def managerStop (st : MState) : MState :=
  let st1 := st.activeCues.foldl (fun s cueId => managerStopCue s cueId 0) st
  { st1 with isPaused := false }

/-! ## Structural operations of the CueManager -/

/-- Insert at an index (the `QList::insert` used by `createCue` /
`moveCue`; positions past the end append, as the callers guarantee
in-range indices). -/
def insertAt (l : List α) (i : Nat) (a : α) : List α :=
  l.take i ++ a :: l.drop i

/-- The subclass constructors dispatched by `CueManager::createCue`
(CueManager.cpp 37-61): `AudioCue::AudioCue`, `GroupCue::GroupCue`,
`WaitCue::WaitCue`, `ControlCue::ControlCue(type)`; every other type
yields no cue.  A fresh `AudioCue` has no engine attached
(`audioEngine_ = nullptr`), `loopEnabled_` is left uninitialized by the
constructor and is modelled as false. -/
def freshCue (t : CueType) (newId : String) : Option Cue :=
  match t with
  | .audio =>
      some (.audioCue ((CueBase.fresh newId .audio).setColor "#64ff96")
        { filePath := "", fileInfoValid := false, fileInfoDuration := 0,
          volume := 8/10, pan := 0, rate := 1, startTime := 0, endTime := 0,
          loopEnabled := false, matrixRouting := [], audioOutputPatch := "",
          playerId := -1, engineConnected := false, engineReady := false,
          engineCreatePlayerId := -1, engineLoadedDuration := 0,
          enginePlayOk := false })
  | .group =>
      some (.groupCue
        (((CueBase.fresh newId .group).setName "Group").setColor "#969696")
        .sequential [] (-1) [])
  | .wait =>
      some (.waitCue
        ((((CueBase.fresh newId .wait).setName "Wait").setColor
          "#ffc864").setDuration 5)
        0)
  | .start =>
      some (.controlCue
        (((CueBase.fresh newId .start).setName "Start").setColor "#64ff64") 0)
  | .stop =>
      some (.controlCue
        (((CueBase.fresh newId .stop).setName "Stop").setColor "#ff6464") 0)
  | .goto =>
      some (.controlCue
        (((CueBase.fresh newId .goto).setName "Goto").setColor "#6496ff") 0)
  | .pause =>
      some (.controlCue
        (((CueBase.fresh newId .pause).setName "Pause").setColor "#ffff64") 0)
  | .load =>
      some (.controlCue
        (((CueBase.fresh newId .load).setName "Load").setColor "#c8c864") 0)
  | .reset =>
      some (.controlCue
        (((CueBase.fresh newId .reset).setName "Reset").setColor "#ff9664") 0)
  | .arm =>
      some (.controlCue
        (((CueBase.fresh newId .arm).setName "Arm").setColor "#64ffc8") 0)
  | .disarm =>
      some (.controlCue
        (((CueBase.fresh newId .disarm).setName "Disarm").setColor "#c864ff") 0)
  | .devamp =>
      some (.controlCue
        (((CueBase.fresh newId .devamp).setName "Devamp").setColor "#c83232") 0)
  | _ => none

/-- `CueManager::generateCueNumber` (CueManager.cpp 893-909). -/
def generateCueNumber (cues : List Cue) : String :=
  if cues.isEmpty then "1"
  else
    let maxNumber : Int := cues.foldl (fun m c =>
      match c.base.number.toInt? with
      | some num => if m < num then num else m
      | none => m) 0
    toString (maxNumber + 1)

/-- `CueManager::createCue` (CueManager.cpp 33-88).  The fresh UUID the
`Cue` constructor would draw is the `newId` parameter.  Returns the new
cue's id, `none` when the type is not implemented. -/
def createCue (st : MState) (t : CueType) (index : Int) (newId : String) :
    MState × Option String :=
  match freshCue t newId with
  | none => (st, none)
  | some cue =>
      let cue := cue.withBase (·.setNumber (generateCueNumber st.cues))
      let cues' :=
        if index < 0 ∨ (st.cues.length : Int) ≤ index then st.cues ++ [cue]
        else insertAt st.cues index.toNat cue
      let st1 := MState.markUnsaved { st with cues := cues' }
      let st2 := if cues'.length = 1 then setStandByCue st1 cue.cid else st1
      (st2, some cue.cid)

/-- The standby-replacement block of `CueManager::removeCue`
(CueManager.cpp 109-117): when the removed cue is on standby, clear the
pointer and re-aim it at `cues_[qMin(index, size-2)]` — reading the
still-unshrunk list. -/
def removeCueStandbyFix (st : MState) (cueId : String) (index : Int) :
    MState :=
  if st.standByCueId = cueId then
    let stc := { st with standByCueId := "" }
    if ¬ stc.cues.isEmpty then
      let nextIndex : Int := min index ((stc.cues.length : Int) - 2)
      if 0 ≤ nextIndex then
        match stc.cues.get? nextIndex.toNat with
        | some c => setStandByCue stc c.cid
        | none => stc
      else stc
    else stc
  else st

/-- `CueManager::removeCue` (CueManager.cpp 90-128). -/
def removeCue (st : MState) (cueId : String) : MState × Bool :=
  if cueId = "" then (st, false)
  else
    match getCue st.cues cueId with
    | none => (st, false)
    | some _ =>
        let index := getCueIndex st.cues cueId
        let st1 := if st.activeCues.contains cueId
                   then managerStopCue st cueId 0 else st
        let st2 := { st1 with
          selectedCueIds := qsetRemove st1.selectedCueIds cueId }
        let st3 := removeCueStandbyFix st2 cueId index
        let st4 := { st3 with cues := st3.cues.eraseIdx index.toNat }
        (st4.markUnsaved, true)

/-- `CueManager::removeAllCues` (CueManager.cpp 130-147). -/
def removeAllCues (st : MState) : MState :=
  let st1 := managerStop st
  { st1 with
    cues := []
    selectedCueIds := []
    activeCues := []
    expandedGroups := []
    standByCueId := "" }

/-- `CueManager::renameCue` (CueManager.cpp 179-189). -/
def renameCue (st : MState) (cueId newNumber : String) : MState × Bool :=
  match getCue st.cues cueId with
  | none => (st, false)
  | some _ =>
      (MState.markUnsaved
        { st with
          cues := updateCueById st.cues cueId
            (·.withBase (·.setNumber newNumber)) },
       true)

/-- `CueManager::renumberAllCues` (CueManager.cpp 191-197). -/
def renumberAllCues (st : MState) : MState :=
  MState.markUnsaved
    { st with
      cues := st.cues.mapIdx (fun i c =>
        c.withBase (·.setNumber (toString (i + 1)))) }

/-- `CueManager::selectCue` (CueManager.cpp 250-265). -/
def selectCue (st : MState) (cueId : String) (clearOthers : Bool) : MState :=
  match getCue st.cues cueId with
  | none => st
  | some _ =>
      let st1 := if clearOthers then { st with selectedCueIds := [] } else st
      if st1.selectedCueIds.contains cueId then st1
      else { st1 with selectedCueIds := st1.selectedCueIds ++ [cueId] }

/-- `CueManager::addToSelection` (CueManager.cpp 267-277). -/
def addToSelection (st : MState) (cueId : String) : MState :=
  match getCue st.cues cueId with
  | none => st
  | some _ =>
      if st.selectedCueIds.contains cueId then st
      else { st with selectedCueIds := st.selectedCueIds ++ [cueId] }

/-- `CueManager::removeFromSelection` (CueManager.cpp 279-284). -/
def removeFromSelection (st : MState) (cueId : String) : MState :=
  { st with selectedCueIds := qsetRemove st.selectedCueIds cueId }

/-- `CueManager::toggleSelection` (CueManager.cpp 286-294). -/
def toggleSelection (st : MState) (cueId : String) : MState :=
  if st.selectedCueIds.contains cueId then removeFromSelection st cueId
  else addToSelection st cueId

/-- `CueManager::selectRange` (CueManager.cpp 296-316). -/
def selectRange (st : MState) (startId endId : String) : MState :=
  let startIndex := getCueIndex st.cues startId
  let endIndex := getCueIndex st.cues endId
  if startIndex < 0 ∨ endIndex < 0 then st
  else
    let lo := min startIndex endIndex
    let hi := max startIndex endIndex
    let ids := ((st.cues.drop lo.toNat).take (hi.toNat + 1 - lo.toNat)).map
      Cue.cid
    { st with selectedCueIds := ids }

/-- `CueManager::selectAll` (CueManager.cpp 318-325). -/
def selectAll (st : MState) : MState :=
  { st with selectedCueIds := st.cues.map Cue.cid }

/-- `CueManager::clearSelection` (CueManager.cpp 327-334). -/
def clearSelection (st : MState) : MState :=
  if st.selectedCueIds.isEmpty then st else { st with selectedCueIds := [] }

/-- `CueManager::moveCue` (CueManager.cpp 425-448). -/
def moveCue (st : MState) (cueId : String) (newIndex : Int) : MState × Bool :=
  let oldIndex := getCueIndex st.cues cueId
  if oldIndex < 0 then (st, false)
  else if newIndex < 0 ∨ (st.cues.length : Int) ≤ newIndex then (st, false)
  else if oldIndex = newIndex then (st, true)
  else
    match st.cues.get? oldIndex.toNat with
    | none => (st, false)
    | some cue =>
        let cues' := insertAt (st.cues.eraseIdx oldIndex.toNat) newIndex.toNat cue
        (MState.markUnsaved { st with cues := cues' }, true)

/-- `CueManager::moveCueUp` (CueManager.cpp 450-457). -/
def moveCueUp (st : MState) (cueId : String) : MState × Bool :=
  let index := getCueIndex st.cues cueId
  if index ≤ 0 then (st, false) else moveCue st cueId (index - 1)

/-- `CueManager::moveCueDown` (CueManager.cpp 459-466). -/
def moveCueDown (st : MState) (cueId : String) : MState × Bool :=
  let index := getCueIndex st.cues cueId
  if index < 0 ∨ (st.cues.length : Int) - 1 ≤ index then (st, false)
  else moveCue st cueId (index + 1)

/-- `GroupCue::totalDuration` (GroupCue.cpp 98-119). -/
def totalDuration (mode : GroupMode) (children : List Cue) : ℚ :=
  if children.isEmpty then 0
  else
    match mode with
    | .sequential =>
        children.foldl (fun total c =>
          total + c.base.preWait + c.base.duration + c.base.postWait) 0
    | .parallel =>
        children.foldl (fun m c =>
          max m (c.base.preWait + c.base.duration + c.base.postWait)) 0

/-- `GroupCue::addChild` (GroupCue.cpp 28-46): append (or insert) and
recompute the derived duration.  On a non-group cue this is the model's
unreachable default. -/
def groupAddChild (g : Cue) (cue : Cue) (index : Int) : Cue :=
  match g with
  | .groupCue b m children ci act =>
      let children' :=
        if index < 0 ∨ (children.length : Int) ≤ index then children ++ [cue]
        else insertAt children index.toNat cue
      .groupCue (b.setDuration (totalDuration m children')) m children' ci act
  | other => other

/-- `GroupCue::setMode` (GroupCue.cpp 88-96). -/
def groupSetMode (g : Cue) (mode : GroupMode) : Cue :=
  match g with
  | .groupCue b m children ci act =>
      if m ≠ mode then
        .groupCue (b.setDuration (totalDuration mode children)) mode children
          ci act
      else g
  | other => other

/-- Ascending insertion by a key; used to model `std::sort` over cues
with the strict comparator `getCueIndex(a) < getCueIndex(b)` — the keys
of distinct live cues are distinct indices, so the result is the unique
sorted order. -/
def insertByKey (key : Cue → Int) (c : Cue) : List Cue → List Cue
  | [] => [c]
  | d :: l => if key c < key d then c :: d :: l else d :: insertByKey key c l

/-- Sort cues ascending by their current top-level index. -/
def sortByIndex (cues : List Cue) (l : List Cue) : List Cue :=
  l.foldr (insertByKey (fun c => getCueIndex cues c.cid)) []

/-- `CueManager::createGroupFromSelection` (CueManager.cpp 340-380);
`newGroupId` is the UUID the fresh group would draw. -/
def createGroupFromSelection (st : MState) (groupName newGroupId : String) :
    MState × Option String :=
  if st.selectedCueIds.isEmpty then
    (st.warn "No cues selected to group", none)
  else
    let selected := st.selectedCueIds.filterMap (getCue st.cues)
    if selected.isEmpty then (st, none)
    else
      let sorted := sortByIndex st.cues selected
      match sorted with
      | [] => (st, none)
      | first :: _ =>
          let firstIndex := getCueIndex st.cues first.cid
          match createCue st .group firstIndex newGroupId with
          | (st1, none) => (st1, none)
          | (st1, some gid) =>
              let st2 := { st1 with
                cues := updateCueById st1.cues gid
                  (·.withBase (·.setName groupName)) }
              let st3 := sorted.foldl (fun s cue =>
                let index := getCueIndex s.cues cue.cid
                if firstIndex < index then
                  match getCue s.cues cue.cid with
                  | some current =>
                      let s1 := { s with cues := s.cues.eraseIdx index.toNat }
                      { s1 with
                        cues := updateCueById s1.cues gid (fun g =>
                          groupAddChild g current (-1)) }
                  | none => s
                else s) st2
              let st4 := clearSelection st3
              let st5 := selectCue st4 gid true
              (st5.markUnsaved, some gid)

/-- The `grp->clearChildren()` step of `CueManager::ungroupCue`
(CueManager.cpp 398, via GroupCue.cpp 81-86): drop all children and
reset the derived duration to 0. -/
def emptyGroupShell (c : Cue) : Cue :=
  match c with
  | .groupCue b2 m2 _ ci2 act2 => .groupCue (b2.setDuration 0) m2 [] ci2 act2
  | o => o

/-- `CueManager::ungroupCue` (CueManager.cpp 382-404).  The impossible
case of a cue whose `type` is Group but whose object is not a `GroupCue`
(a `static_cast` in C++) declines. -/
def ungroupCue (st : MState) (groupId : String) : MState × Bool :=
  if groupId = "" then (st, false)
  else
    match getCue st.cues groupId with
    | none => (st, false)
    | some g =>
        if g.base.type ≠ .group then (st, false)
        else
          match g with
          | .groupCue _ _ children _ _ =>
              let groupIndex := getCueIndex st.cues groupId
              let spliced := st.cues.take (groupIndex.toNat + 1) ++ children ++
                st.cues.drop (groupIndex.toNat + 1)
              let st1 := { st with cues := spliced }
              let st2 := { st1 with
                cues := updateCueById st1.cues groupId emptyGroupShell }
              let st3 := (removeCue st2 groupId).1
              (st3.markUnsaved, true)
          | _ => (st, false)

/-- `CueManager::setGroupExpanded` (CueManager.cpp 411-419). -/
def setGroupExpanded (st : MState) (groupId : String) (expanded : Bool) :
    MState :=
  if expanded then { st with expandedGroups := qsetInsert st.expandedGroups groupId }
  else { st with expandedGroups := qsetRemove st.expandedGroups groupId }

mutual

/-- `Cue::clone` dispatch, used by `duplicateCue`; `seed` stands for the
fresh UUIDs the cloned objects would draw (a group clone derives one per
child).
* `WaitCue::clone` (WaitCue.cpp 103-117), `ControlCue::clone`
  (ControlCue.cpp 175-191), `GroupCue::clone` (GroupCue.cpp 262-284) are
  translated from the source;
* `AudioCue::clone` is declared in AudioCue.h but its definition is
  missing from src/.  Modelled from the spec: clone carries the cue's
  persisted fields over to a fresh cue (value semantics), with the
  conventional name suffix the sibling clones use. -/
def cueClone (seed : String) : Cue → Cue
  | .audioCue b a =>
      .audioCue
        (((((((((CueBase.fresh seed .audio).setNumber b.number).setName
          (b.name ++ " (copy)")).setDuration b.duration).setPreWait
          b.preWait).setPostWait b.postWait).setContinueMode
          b.continueMode).setColor b.color).setNotes b.notes)
        { a with playerId := -1, engineConnected := false, engineReady := false }
  | .waitCue b _ =>
      match freshCue .wait seed with
      | some (.waitCue fb fr) =>
          .waitCue
            ((((((((fb.setNumber b.number).setName
              (b.name ++ " (copy)")).setDuration b.duration).setPreWait
              b.preWait).setPostWait b.postWait).setContinueMode
              b.continueMode).setColor b.color).setNotes b.notes)
            fr
      | _ => .waitCue b 0
  | .controlCue b ft =>
      match freshCue b.type seed with
      | some (.controlCue fb _) =>
          .controlCue
            (((((((((fb.setNumber b.number).setName
              (b.name ++ " (copy)")).setDuration b.duration).setPreWait
              b.preWait).setPostWait b.postWait).setContinueMode
              b.continueMode).setColor b.color).setNotes
              b.notes).setTargetCueId b.targetCueId)
            ft
      | _ => .controlCue b ft
  | .groupCue b m children _ _ =>
      match freshCue .group seed with
      | some (.groupCue fb _ _ fci fact) =>
          let fb := ((((((((fb.setNumber b.number).setName
            (b.name ++ " (copy)")).setDuration b.duration).setPreWait
            b.preWait).setPostWait b.postWait).setContinueMode
            b.continueMode).setColor b.color).setNotes b.notes)
          let g0 := groupSetMode (.groupCue fb .sequential [] fci fact) m
          (cloneChildren seed 0 children).foldl
            (fun g cc => groupAddChild g cc (-1)) g0
      | _ => .groupCue b m [] (-1) []

/-- The child-cloning loop of `GroupCue::clone`; per-child seeds derive
from the group's. -/
def cloneChildren (seed : String) (i : Nat) : List Cue → List Cue
  | [] => []
  | c :: cs =>
      cueClone (seed ++ "." ++ toString i) c :: cloneChildren seed (i + 1) cs

end

/-- `CueManager::duplicateCue` (CueManager.cpp 149-177). -/
def duplicateCue (st : MState) (cueId newId : String) :
    MState × Option String :=
  match getCue st.cues cueId with
  | none => (st, none)
  | some original =>
      let index := getCueIndex st.cues cueId
      let newCue := (cueClone newId original).withBase
        (·.setNumber (generateCueNumber st.cues))
      let st1 := MState.markUnsaved
        { st with cues := insertAt st.cues (index + 1).toNat newCue }
      (st1, some newCue.cid)

/-! ## Serialization (`toJson` / `fromJson`)

A `QJsonValue` / `QJsonObject` model.  `QJsonObject` keeps its entries
sorted by key internally; the round-trip functions only ever access
entries by key, so an association list in insertion order is
equivalent. -/

/-- A JSON value. -/
inductive JVal where
  | jnull
  | jbool (b : Bool)
  | jnum (q : ℚ)
  | jstr (s : String)
  | jarr (elems : List JVal)
  | jobj (fields : List (String × JVal))

/-- `QJsonObject::value(key)` (`none` stands for `QJsonValue::Undefined`). -/
def jGet (fields : List (String × JVal)) (k : String) : Option JVal :=
  (fields.find? (fun f => f.1 == k)).map (fun f => f.2)

/-- `QJsonObject::contains`. -/
def jContains (fields : List (String × JVal)) (k : String) : Bool :=
  (jGet fields k).isSome

/-- `QJsonValue::toString(defaultValue)`. -/
def jToString (v : Option JVal) (d : String) : String :=
  match v with
  | some (.jstr s) => s
  | _ => d

/-- `QJsonValue::toDouble(defaultValue)`. -/
def jToDouble (v : Option JVal) (d : ℚ) : ℚ :=
  match v with
  | some (.jnum q) => q
  | _ => d

/-- `QJsonValue::toBool(defaultValue)`. -/
def jToBool (v : Option JVal) (d : Bool) : Bool :=
  match v with
  | some (.jbool b) => b
  | _ => d

/-- `Cue::toJson` (Cue.cpp 292-312): the base-class fields.  The two
ISO-8601 timestamp entries are outside the model (wall clock). -/
def baseToJson (b : CueBase) : List (String × JVal) :=
  [("id", .jstr b.id),
   ("type", .jstr (cueTypeToString b.type)),
   ("number", .jstr b.number),
   ("name", .jstr b.name),
   ("duration", .jnum b.duration),
   ("preWait", .jnum b.preWait),
   ("postWait", .jnum b.postWait),
   ("continueMode", .jbool b.continueMode),
   ("color", .jstr b.color),
   ("notes", .jstr b.notes),
   ("isArmed", .jbool b.isArmed),
   ("targetCueId", .jstr b.targetCueId)]

/-- `Cue::fromJson` (Cue.cpp 314-341).  `QColor(hex).name()` reproduces
a well-formed lowercase `#rrggbb` string, so the color entry is adopted
as carried. -/
def baseFromJson (b : CueBase) (j : List (String × JVal)) : CueBase :=
  let b := if jContains j "id" then { b with id := jToString (jGet j "id") "" }
           else b
  let b := b.setNumber (jToString (jGet j "number") "1")
  let b := b.setName (jToString (jGet j "name") "New Cue")
  let b := b.setDuration (jToDouble (jGet j "duration") 0)
  let b := b.setPreWait (jToDouble (jGet j "preWait") 0)
  let b := b.setPostWait (jToDouble (jGet j "postWait") 0)
  let b := b.setContinueMode (jToBool (jGet j "continueMode") false)
  let b := if jContains j "color" then b.setColor (jToString (jGet j "color") "")
           else b
  let b := b.setNotes (jToString (jGet j "notes") "")
  let b := b.setArmed (jToBool (jGet j "isArmed") true)
  let b := b.setTargetCueId (jToString (jGet j "targetCueId") "")
  b

mutual

/-- `Cue::toJson` virtual dispatch:
* `AudioCue.cpp 342-362` (its body is written against a
  `void toJson(QJsonObject&)` signature while AudioCue.h declares the
  base-conforming `QJsonObject toJson() const`; the body is the de-facto
  serializer and is what is translated here).  Note that `loopEnabled`
  is never written.
* `WaitCue::toJson` (WaitCue.cpp 91-95): base only.
* `ControlCue::toJson` (ControlCue.cpp 162-167).
* `GroupCue::toJson` (GroupCue.cpp 235-248): base, mode and the
  recursively serialized children array. -/
def cueToJson : Cue → JVal
  | .audioCue b a =>
      .jobj (baseToJson b ++
        [("filePath", .jstr a.filePath),
         ("volume", .jnum a.volume),
         ("pan", .jnum a.pan),
         ("rate", .jnum a.rate),
         ("startTime", .jnum a.startTime),
         ("endTime", .jnum a.endTime),
         ("audioOutputPatch", .jstr a.audioOutputPatch)] ++
        (if a.matrixRouting.isEmpty then []
         else [("matrixRouting",
                .jobj (a.matrixRouting.map (fun e => (e.1, JVal.jnum e.2))))]))
  | .waitCue b _ => .jobj (baseToJson b)
  | .controlCue b ft => .jobj (baseToJson b ++ [("fadeTime", .jnum ft)])
  | .groupCue b m children _ _ =>
      .jobj (baseToJson b ++
        [("mode", .jstr (if m = .sequential then "sequential" else "parallel")),
         ("children", .jarr (cueListToJson children))])

/-- The `childrenArray.append(child->toJson())` loop of
`GroupCue::toJson`. -/
def cueListToJson : List Cue → List JVal
  | [] => []
  | c :: cs => cueToJson c :: cueListToJson cs

end

/-- `qFuzzyCompare(p1, p2)`. -/
def qFuzzyCompare (a b : ℚ) : Bool :=
  |a - b| * 1000000000000 ≤ min |a| |b|

/-- `AudioCue::setVolume` (AudioCue.cpp 76-88): clamp to [0, 1]. -/
def audioSetVolume (a : AudioExtra) (volume : ℚ) : AudioExtra :=
  let v := max 0 (min volume 1)
  if ¬ qFuzzyCompare a.volume v then { a with volume := v } else a

/-- `AudioCue::setPan` (AudioCue.cpp 90-97): clamp to [-1, 1]. -/
def audioSetPan (a : AudioExtra) (pan : ℚ) : AudioExtra :=
  let v := max (-1) (min pan 1)
  if ¬ qFuzzyCompare a.pan v then { a with pan := v } else a

/-- `AudioCue::validateTrimPoints` (AudioCue.cpp 138-150). -/
def audioValidateTrimPoints (a : AudioExtra) : AudioExtra :=
  let a := if a.endTime ≤ a.startTime ∧ 0 < a.endTime then
             { a with startTime := max 0 (a.endTime - 1/10) }
           else a
  if a.fileInfoValid then
    let a := { a with startTime := min a.startTime a.fileInfoDuration }
    if a.fileInfoDuration < a.endTime then
      { a with endTime := a.fileInfoDuration }
    else a
  else a

/-- `AudioCue::setRate` (AudioCue.cpp 99-107): clamp to [0.5, 2]. -/
def audioSetRate (a : AudioExtra) (rate : ℚ) : AudioExtra :=
  let v := max (1/2) (min rate 2)
  if ¬ qFuzzyCompare a.rate v then
    audioValidateTrimPoints { a with rate := v }
  else a

/-- `AudioCue::setStartTime` (AudioCue.cpp 109-117). -/
def audioSetStartTime (a : AudioExtra) (seconds : ℚ) : AudioExtra :=
  let s := max 0 seconds
  if ¬ qFuzzyCompare a.startTime s then
    audioValidateTrimPoints { a with startTime := s }
  else a

/-- `AudioCue::setEndTime` (AudioCue.cpp 119-127). -/
def audioSetEndTime (a : AudioExtra) (seconds : ℚ) : AudioExtra :=
  let s := max 0 seconds
  if ¬ qFuzzyCompare a.endTime s then
    audioValidateTrimPoints { a with endTime := s }
  else a

/-- `AudioCue::setFilePath` + `loadFileInfo` (AudioCue.cpp 42-74);
`fsExists` is the filesystem's answer for the new path (an external
probe).  The name fallback for empty cue names is in the base part. -/
def audioSetFilePath (fsExists : Bool) (a : AudioExtra) (path : String) :
    AudioExtra :=
  if a.filePath ≠ path then
    let a := { a with filePath := path, fileInfoValid := false,
                      fileInfoDuration := 0 }
    if path = "" then a
    else if fsExists then { a with fileInfoValid := true } else a
  else a

/-- `Cue::fromJson` virtual dispatch onto a (typically fresh) cue:
* `AudioCue::fromJson` (AudioCue.cpp 364-385);
* `WaitCue::fromJson` (WaitCue.cpp 97-101): base, then the countdown is
  reset to the read duration;
* `ControlCue::fromJson` (ControlCue.cpp 169-173);
* `GroupCue::fromJson` (GroupCue.cpp 250-260): base and mode; the
  `children` entry is **not** deserialized — the code only logs
  "Child deserialization needs CueFactory implementation". -/
def cueFromJson (fsExists : Bool) (c : Cue) (j : List (String × JVal)) : Cue :=
  match c with
  | .audioCue b a =>
      let b := baseFromJson b j
      let a := audioSetFilePath fsExists a (jToString (jGet j "filePath") "")
      let a := audioSetVolume a (jToDouble (jGet j "volume") (8/10))
      let a := audioSetPan a (jToDouble (jGet j "pan") 0)
      let a := audioSetRate a (jToDouble (jGet j "rate") 1)
      let a := audioSetStartTime a (jToDouble (jGet j "startTime") 0)
      let a := audioSetEndTime a (jToDouble (jGet j "endTime") 0)
      let a := { a with audioOutputPatch := jToString (jGet j "audioOutputPatch") "" }
      let a :=
        if jContains j "matrixRouting" then
          match jGet j "matrixRouting" with
          | some (.jobj routingObj) =>
              { a with matrixRouting := routingObj.map (fun e =>
                  (e.1, jToDouble (some e.2) 0)) }
          | _ => { a with matrixRouting := [] }
        else a
      .audioCue b a
  | .waitCue b _ =>
      let b := baseFromJson b j
      .waitCue b b.duration
  | .controlCue b ft =>
      let b := baseFromJson b j
      let s := max 0 (jToDouble (jGet j "fadeTime") 0)
      let ft := if |ft - s| > 1/1000 then s else ft
      .controlCue b ft
  | .groupCue b m children ci act =>
      let b := baseFromJson b j
      let modeStr := jToString (jGet j "mode") "sequential"
      let g := groupSetMode (.groupCue b m children ci act)
        (if modeStr = "parallel" then .parallel else .sequential)
      match g with
      | .groupCue _ m2 ch2 ci2 act2 => .groupCue b m2 ch2 ci2 act2
      | other => other

/-! ## The audio transport engine (JuceAudioEngine.cpp / AudioEngineQt.cpp)

The per-player transport state.  `transportPosition` /
`transportLength` model `juce::AudioTransportSource`'s stored playback
position and the loaded stream length: `setPosition(seconds)` on the
transport records the requested time. -/

/-- The `AudioPlayer` of JuceAudioEngine.{h,cpp}. -/
structure AudioPlayer where
  playerId : Int
  loaded : Bool
  volume : ℚ
  transportPosition : ℚ
  transportLength : ℚ
deriving DecidableEq, Repr

/-- `juce::jlimit(lo, hi, v)`. -/
def jlimit (lo hi v : ℚ) : ℚ :=
  if v < lo then lo else if hi < v then hi else v

/-- `AudioPlayer::setVolume` (JuceAudioEngine.cpp 328-332): clamped. -/
def AudioPlayer.setVolume (p : AudioPlayer) (volume : ℚ) : AudioPlayer :=
  { p with volume := jlimit 0 1 volume }

/-- `AudioPlayer::setPosition` (JuceAudioEngine.cpp 339-342): the
requested seconds are handed to the transport unmodified — there is no
clamping on this path. -/
def AudioPlayer.setPosition (p : AudioPlayer) (seconds : ℚ) : AudioPlayer :=
  { p with transportPosition := seconds }

/-- `AudioPlayer::getPosition` / `getDuration`. -/
def AudioPlayer.getPosition (p : AudioPlayer) : ℚ := p.transportPosition

/-- `AudioPlayer::getDuration`. -/
def AudioPlayer.getDuration (p : AudioPlayer) : ℚ := p.transportLength

/-- `AudioPlayer::setPosition` of the phase-1 standalone engine
(JuceEngineStandalone.cpp 478-492, namespace CueForgePhase1): the same
class there *does* clamp, `jlimit(0.0, getDuration(), seconds)`. -/
def standalonePlayerSetPosition (p : AudioPlayer) (seconds : ℚ) : AudioPlayer :=
  if ¬ p.loaded then p
  else { p with transportPosition := jlimit 0 p.getDuration seconds }

/-- The player table of `JuceAudioEngine` (keyed by player id). -/
structure EngineState where
  players : List (Int × AudioPlayer)
deriving DecidableEq, Repr

/-- `JuceAudioEngine::getPlayer`. -/
def engineGetPlayer (e : EngineState) (playerId : Int) : Option AudioPlayer :=
  (e.players.find? (fun q => q.1 == playerId)).map (fun q => q.2)

/-- `AudioEngineQt::setPosition` (AudioEngineQt.cpp 219-230): look the
player up and forward the seconds — again without clamping. -/
def engineSetPosition (e : EngineState) (playerId : Int) (seconds : ℚ) :
    EngineState :=
  match engineGetPlayer e playerId with
  | none => e
  | some _ =>
      { players := e.players.map (fun q =>
          if q.1 == playerId then (q.1, q.2.setPosition seconds) else q) }

/-- `CueManager::panic` (CueManager.cpp 551-568). -/
def managerPanic (st : MState) : MState :=
  let cues := st.activeCues.foldl (fun cs cueId =>
    match getCue cs cueId with
    | none => cs
    | some _ =>
        updateCueById cs cueId (fun c =>
          (cueStop 0 c).withBase (·.setStatus .loaded))) st.cues
  MState.warn
    { st with cues := cues, activeCues := [], isPaused := false }
    "PANIC - All cues stopped"

/-! ## The CueManager command surface as a labelled transition system

One constructor per public mutating `CueManager` entry point modelled
above (clipboard / workspace-file operations excepted, see the module
conventions); `applyOp` runs the operation and discards its return
value.  Fresh-UUID parameters ride on the constructors. -/

/-- A `CueManager` command. -/
inductive MOp where
  | opSelectCue (cueId : String) (clearOthers : Bool)
  | opAddToSelection (cueId : String)
  | opRemoveFromSelection (cueId : String)
  | opToggleSelection (cueId : String)
  | opSelectRange (startId endId : String)
  | opSelectAll
  | opClearSelection
  | opCreateCue (t : CueType) (index : Int) (newId : String)
  | opRemoveCue (cueId : String)
  | opRemoveAllCues
  | opDuplicateCue (cueId newId : String)
  | opRenameCue (cueId newNumber : String)
  | opRenumberAllCues
  | opMoveCue (cueId : String) (newIndex : Int)
  | opMoveCueUp (cueId : String)
  | opMoveCueDown (cueId : String)
  | opCreateGroupFromSelection (groupName newGroupId : String)
  | opUngroupCue (groupId : String)
  | opSetGroupExpanded (groupId : String) (expanded : Bool)
  | opSetStandByCue (cueId : String)
  | opNextCue
  | opPreviousCue
  | opGo (fuel : Nat)
  | opStop
  | opStopCue (cueId : String) (fadeTime : ℚ)
  | opPause
  | opPanic
  | opMarkSaved
  | opMarkUnsaved

/-- Run one `CueManager` command. -/
def applyOp : MOp → MState → MState
  | .opSelectCue cueId clearOthers, st => selectCue st cueId clearOthers
  | .opAddToSelection cueId, st => addToSelection st cueId
  | .opRemoveFromSelection cueId, st => removeFromSelection st cueId
  | .opToggleSelection cueId, st => toggleSelection st cueId
  | .opSelectRange s e, st => selectRange st s e
  | .opSelectAll, st => selectAll st
  | .opClearSelection, st => clearSelection st
  | .opCreateCue t index newId, st => (createCue st t index newId).1
  | .opRemoveCue cueId, st => (removeCue st cueId).1
  | .opRemoveAllCues, st => removeAllCues st
  | .opDuplicateCue cueId newId, st => (duplicateCue st cueId newId).1
  | .opRenameCue cueId newNumber, st => (renameCue st cueId newNumber).1
  | .opRenumberAllCues, st => renumberAllCues st
  | .opMoveCue cueId newIndex, st => (moveCue st cueId newIndex).1
  | .opMoveCueUp cueId, st => (moveCueUp st cueId).1
  | .opMoveCueDown cueId, st => (moveCueDown st cueId).1
  | .opCreateGroupFromSelection n g, st => (createGroupFromSelection st n g).1
  | .opUngroupCue groupId, st => (ungroupCue st groupId).1
  | .opSetGroupExpanded groupId expanded, st =>
      setGroupExpanded st groupId expanded
  | .opSetStandByCue cueId, st => setStandByCue st cueId
  | .opNextCue, st => managerNextCue st
  | .opPreviousCue, st => managerPreviousCue st
  | .opGo fuel, st => (go fuel st).1
  | .opStop, st => managerStop st
  | .opStopCue cueId fadeTime, st => managerStopCue st cueId fadeTime
  | .opPause, st => managerPause st
  | .opPanic, st => managerPanic st
  | .opMarkSaved, st => { st with hasUnsavedChanges := false }
  | .opMarkUnsaved, st => st.markUnsaved

/-- The selection-validity invariant of the claims: every selected id
refers to a cue present in the top-level sequence. -/
def SelInv (st : MState) : Prop :=
  ∀ cueId ∈ st.selectedCueIds, cueId ∈ st.cues.map Cue.cid

/-- A step kept the top-level id list and the selection unchanged; the
selection-validity invariant transports along such a step. -/
def Pres (st st' : MState) : Prop :=
  st'.cues.map Cue.cid = st.cues.map Cue.cid ∧
  st'.selectedCueIds = st.selectedCueIds

/-! ## Concrete fixtures used by the closed theorems -/

/-- An armed, 5-second wait cue. -/
def sampleWait (i : String) : Cue :=
  .waitCue { CueBase.fresh i .wait with duration := 5 } 0

/-- A manager state holding the given cues and nothing else. -/
def plainState (cs : List Cue) : MState :=
  { cues := cs, selectedCueIds := [], activeCues := [], expandedGroups := [],
    standByCueId := "", isPaused := false, hasUnsavedChanges := false,
    warnings := [], errors := [] }

/-- The `children_` of a group cue. -/
def groupChildren : Cue → List Cue
  | .groupCue _ _ ch _ _ => ch
  | _ => []

/-- The `activeChildren_` of a group cue. -/
def groupActiveChildren : Cue → List String
  | .groupCue _ _ _ _ act => act
  | _ => []

/-- The status of the cue at a path. -/
def cueStatusAt (st : MState) (p : List Nat) : Option CueStatus :=
  (getAtPath st.cues p).map (fun c => c.base.status)

/-- C1: a disarmed 5-second wait cue. -/
def c1Wait : Cue :=
  .waitCue { CueBase.fresh "w" .wait with duration := 5, isArmed := false } 0

/-- C2: two wait cues with the first on standby. -/
def c2State : MState :=
  { plainState [sampleWait "A", sampleWait "B"] with standByCueId := "A" }

/-- C3: a one-child group. -/
def c3Child : Cue :=
  .waitCue { CueBase.fresh "ch" .wait with duration := 3, name := "W" } 0

/-- C3: the group under serialization. -/
def c3Group : Cue :=
  .groupCue { CueBase.fresh "g3" .group with name := "G" } .sequential
    [c3Child] (-1) []

/-- C3: the serialized object of `c3Group`. -/
def c3Json : List (String × JVal) :=
  match cueToJson c3Group with
  | .jobj fields => fields
  | _ => []

/-- C3: a fresh group cue of the same type, as `fromJson`'s receiver. -/
def c3Fresh : Cue :=
  (freshCue .group "g3b").getD
    (.groupCue (CueBase.fresh "g3b" .group) .sequential [] (-1) [])

/-- C4: one cue, standby unset. -/
def c4State : MState := plainState [sampleWait "B"]

/-- C5: an Arm-type control cue targeting the top-level cue `t`; it
completes synchronously inside the group's start loop. -/
def c5Ctl : Cue :=
  .controlCue { CueBase.fresh "c1" .arm with targetCueId := "t" } 0

/-- C5: a Parallel group of the control cue and a 5-second wait. -/
def c5Group : Cue :=
  .groupCue (CueBase.fresh "g" .group) .parallel [c5Ctl, sampleWait "c2"]
    (-1) []

/-- C5: the manager state: the group and the control target. -/
def c5State : MState := plainState [c5Group, sampleWait "t"]

/-- C6: two cues with exactly one selected. -/
def c6State : MState :=
  { plainState [sampleWait "x", sampleWait "y"] with selectedCueIds := ["y"] }

/-- C7: a Start-type control cue whose target id dangles. -/
def c7Ctl : Cue :=
  .controlCue { CueBase.fresh "cd" .start with targetCueId := "zz" } 0

/-- C8: a loaded player with a 10-second file. -/
def c8Player : AudioPlayer :=
  { playerId := 1, loaded := true, volume := 1, transportPosition := 0,
    transportLength := 10 }

/-- C8: the engine holding `c8Player` under id 1. -/
def c8Engine : EngineState := { players := [(1, c8Player)] }

/-- C1: a disarmed Stop-type control cue, used by the witness. -/
def c1WitCtl : Cue :=
  .controlCue { CueBase.fresh "dc" .stop with isArmed := false } 0

/-! # Theorems -/

/-- C2 (code bug, evaluation at the failing input): with cues [A, B] and
standby A, `removeCue("A")` succeeds and leaves the list at [B] — but
`standByCueId_` ends at "A", the id of the removed cue, because the
replacement standby is read from `cues_` *before* `removeAt` runs, at
`qMin(index, size-2) = index`, the slot of the cue being removed.  The
claimed invariant — the standby refers to a remaining cue or to none —
is violated. -/
theorem c2_theorem :
    (removeCue c2State "A").2 = true ∧
    ((removeCue c2State "A").1.cues.map Cue.cid) = ["B"] ∧
    (removeCue c2State "A").1.standByCueId = "A" ∧
    "A" ∉ ((removeCue c2State "A").1.cues.map Cue.cid) := by
  refine ⟨?_, ?_, ?_, ?_⟩
  · with_unfolding_all rfl
  · with_unfolding_all rfl
  · with_unfolding_all rfl
  · intro h
    rw [show (removeCue c2State "A").1.cues.map Cue.cid = ["B"] from by
      with_unfolding_all rfl] at h
    simp at h

/-- C4 (counterexample): the claim says `go()` with no standby defaults
to executing the first cue, failing only on an empty list.  In the code
there is no such default: with one cue and an unset standby, `go()`
returns false, warns "No standby cue set", and leaves every cue
untouched. -/
theorem c4_counterexample :
    c4State.cues.length = 1 ∧
    (go 1 c4State).2 = false ∧
    (go 1 c4State).1.cues = c4State.cues ∧
    (go 1 c4State).1.warnings = ["No standby cue set"] := by
  refine ⟨?_, ?_, ?_, ?_⟩ <;> with_unfolding_all rfl

/-- C4 (amended): whenever the standby id resolves to no cue — it is
empty or dangling — `go()` emits the warning "No standby cue set" and
returns false with the state otherwise unchanged, regardless of whether
the cue list is empty; it never falls back to the first cue. -/
theorem c4_theorem (fuel : Nat) (st : MState)
    (h : getCue st.cues st.standByCueId = none) :
    go fuel st = (st.warn "No standby cue set", false) := by
  simp [go, h]

/-- C4 (witness): the amended theorem applied to `c4State`. -/
theorem c4_witness :
    go 1 c4State = (c4State.warn "No standby cue set", false) :=
  c4_theorem 1 c4State (by with_unfolding_all rfl)

/-- C5 (code bug, evaluation at the failing input): executing the
Parallel group [ControlCue(Arm → t), WaitCue 5 s] makes the control
child finish synchronously during the start loop; `activeChildren_`
momentarily empties, `onChildFinished` marks the group Finished and
emits its `executionFinished` — and only then is the wait child started.
The run ends with the group Finished while the started wait child is
still Running inside `activeChildren_`, contradicting the claim that the
group is never Finished while a started child has not completed. -/
theorem c5_theorem :
    (execCue 10 c5State [0]).2.1 = true ∧
    cueStatusAt (execCue 10 c5State [0]).1 [0] = some .finished ∧
    ((getAtPath (execCue 10 c5State [0]).1.cues [0]).map groupActiveChildren)
      = some ["c2"] ∧
    cueStatusAt (execCue 10 c5State [0]).1 [0, 1] = some .running := by
  refine ⟨?_, ?_, ?_, ?_⟩ <;> with_unfolding_all rfl

/-- C3 (code bug, evaluation at the failing input): serializing a group
with one wait child writes a one-entry `children` array, but running
`fromJson` on a fresh group of the same type reconstructs zero children
— `GroupCue::fromJson` ignores the `children` entry (its body only logs
that child deserialization needs a CueFactory). -/
theorem c3_theorem :
    (groupChildren c3Group).length = 1 ∧
    (match jGet c3Json "children" with
     | some (.jarr a) => a.length
     | _ => 0) = 1 ∧
    (groupChildren (cueFromJson false c3Fresh c3Json)).length = 0 := by
  refine ⟨?_, ?_, ?_⟩ <;> with_unfolding_all rfl

/-- C6 (counterexample): the claim requires at least 2 selected cues.
With exactly one cue selected the operation does *not* decline: it
creates the group "g1", moves the selected cue into it, and rewrites the
top level — the only declining branch tests for an empty selection. -/
theorem c6_counterexample :
    c6State.selectedCueIds.length = 1 ∧
    (createGroupFromSelection c6State "Group" "g1").2 = some "g1" ∧
    ((createGroupFromSelection c6State "Group" "g1").1.cues.map Cue.cid)
      = ["x", "g1"] ∧
    ((getCue (createGroupFromSelection c6State "Group" "g1").1.cues "g1").map
      (fun c => (groupChildren c).map Cue.cid)) = some ["y"] := by
  refine ⟨?_, ?_, ?_, ?_⟩ <;> with_unfolding_all rfl

/-- C6 (amended): `createGroupFromSelection` requires at least **1**
selected cue: with no cues selected it declines with the warning
"No cues selected to group", creates no group, and changes no other
state. -/
theorem c6_theorem (st : MState) (groupName newGroupId : String)
    (h : st.selectedCueIds = []) :
    createGroupFromSelection st groupName newGroupId =
      (st.warn "No cues selected to group", none) := by
  simp [createGroupFromSelection, h]

/-- C6 (witness): the amended theorem applied to a one-cue state with an
empty selection. -/
theorem c6_witness :
    createGroupFromSelection (plainState [sampleWait "x"]) "Group" "g1" =
      ((plainState [sampleWait "x"]).warn "No cues selected to group", none) :=
  c6_theorem (plainState [sampleWait "x"]) "Group" "g1" rfl

/-- C8 (code bug, evaluation at the failing input): `setPosition` on a
loaded player with a 10-second file and the request -5 s stores -5 — the
repository's production `AudioPlayer::setPosition` forwards the seconds
to the transport without any clamping, while the phase-1 standalone
variant of the same class clamps the same request to 0 with
`jlimit(0.0, getDuration(), seconds)`. -/
theorem c8_theorem :
    ((engineGetPlayer (engineSetPosition c8Engine 1 (-5)) 1).map
      AudioPlayer.getPosition) = some (-5) ∧
    ¬ ((0 : ℚ) ≤ -5) ∧
    ((engineGetPlayer c8Engine 1).map AudioPlayer.getDuration) = some 10 ∧
    standalonePlayerSetPosition c8Player (-5) =
      { c8Player with transportPosition := 0 } := by
  refine ⟨?_, by norm_num, ?_, ?_⟩ <;> with_unfolding_all rfl

/-! ### Setter / constructor bookkeeping lemmas -/

theorem CueBase.setNumber_id (b : CueBase) (n : String) :
    (b.setNumber n).id = b.id := by
  unfold CueBase.setNumber; split <;> rfl

theorem CueBase.setName_id (b : CueBase) (n : String) :
    (b.setName n).id = b.id := by
  unfold CueBase.setName; split <;> rfl

theorem CueBase.setColor_id (b : CueBase) (c : String) :
    (b.setColor c).id = b.id := by
  unfold CueBase.setColor; split <;> rfl

theorem CueBase.setDuration_id (b : CueBase) (s : ℚ) :
    (b.setDuration s).id = b.id := by
  simp only [CueBase.setDuration]; split <;> rfl

theorem CueBase.setStatus_id (b : CueBase) (s : CueStatus) :
    (b.setStatus s).id = b.id := by
  unfold CueBase.setStatus; split <;> rfl

theorem CueBase.setArmed_id (b : CueBase) (v : Bool) :
    (b.setArmed v).id = b.id := by
  unfold CueBase.setArmed; split <;> rfl

theorem Cue.withBase_cid (c : Cue) (f : CueBase → CueBase)
    (h : ∀ b, (f b).id = b.id) : (c.withBase f).cid = c.cid := by
  cases c <;> simp [Cue.withBase, Cue.cid, Cue.base, h]

/-- Every cue `freshCue` builds carries the id it was given. -/
theorem freshCue_cid {t : CueType} {newId : String} {c : Cue}
    (h : freshCue t newId = some c) : c.cid = newId := by
  cases t <;> simp [freshCue] at h <;> subst h <;>
    simp [Cue.cid, Cue.base, CueBase.setName_id, CueBase.setColor_id,
      CueBase.setDuration_id, CueBase.fresh]

theorem setStandByCue_standByCueId (st : MState) (i : String) :
    (setStandByCue st i).standByCueId = i := by
  unfold setStandByCue
  split
  · next h => exact h
  · rfl

theorem setStandByCue_cues (st : MState) (i : String) :
    (setStandByCue st i).cues = st.cues := by
  unfold setStandByCue; split <;> rfl

/-- C1 (counterexample): the claim's premise that a disarmed cue has
`canExecute() == false` and refuses `execute()` fails for WaitCue:
`WaitCue::canExecute` is overridden to return true unconditionally, and
`WaitCue::execute` performs no arming check — a disarmed 5-second wait
cue executes, returning true and transitioning to Running. -/
theorem c1_counterexample :
    c1Wait.base.isArmed = false ∧
    Cue.canExecute (plainState [c1Wait]).cues c1Wait = true ∧
    (execCue 1 (plainState [c1Wait]) [0]).2.1 = true ∧
    cueStatusAt (execCue 1 (plainState [c1Wait]) [0]).1 [0]
      = some .running := by
  refine ⟨?_, ?_, ?_, ?_⟩ <;> with_unfolding_all rfl

/-- C1 (amended): whenever `canExecute()` is false, `execute()` returns
false and performs no state change — this holds for every cue object,
across all four implemented classes.  However, for WaitCue the
precondition is unsatisfiable: `WaitCue::canExecute` always returns
true, so disarmed or broken wait cues are *not* refused (their
`execute()` fails only on a non-positive duration). -/
theorem c1_theorem :
    (∀ (fuel : Nat) (st : MState) (p : List Nat) (c : Cue),
      getAtPath st.cues p = some c → c.canExecute st.cues = false →
      execCue (fuel + 1) st p = (st, false, false)) ∧
    (∀ (cues : List Cue) (b : CueBase) (r : ℚ),
      Cue.canExecute cues (.waitCue b r) = true) := by
  constructor
  · intro fuel st p c hc h
    cases c with
    | audioCue b a => simp [execCue, hc, h]
    | waitCue b r => simp [Cue.canExecute] at h
    | controlCue b ft => simp [execCue, hc, h]
    | groupCue b m ch ci act => simp [execCue, hc, h]
  · intro cues b r
    rfl

/-- C1 (witness): the amended theorem applied to a disarmed control cue,
whose `canExecute()` is false. -/
theorem c1_witness :
    execCue 1 (plainState [c1WitCtl]) [0] = (plainState [c1WitCtl], false, false) :=
  c1_theorem.1 0 (plainState [c1WitCtl]) [0] c1WitCtl
    (by with_unfolding_all rfl) (by with_unfolding_all rfl)

/-- C7: for a ControlCue of any non-Pause type whose `targetCueId` is
empty or dangles, `hasValidTarget()` tolerates the reference and returns
false, `canExecute()` returns false, and `execute()` returns false
leaving the whole manager state unchanged — all three are total
functions of the model, so no fault is possible. -/
theorem c7_theorem (fuel : Nat) (st : MState) (p : List Nat) (b : CueBase)
    (ft : ℚ) (hc : getAtPath st.cues p = some (.controlCue b ft))
    (hpause : b.type ≠ CueType.pause)
    (hdangle : targetCue st.cues b = none) :
    hasValidTarget st.cues b = false ∧
    Cue.canExecute st.cues (.controlCue b ft) = false ∧
    execCue (fuel + 1) st p = (st, false, false) := by
  have h1 : hasValidTarget st.cues b = false := by
    simp [hasValidTarget, hdangle]
  have h2 : Cue.canExecute st.cues (.controlCue b ft) = false := by
    simp [Cue.canExecute, h1, hpause]
  exact ⟨h1, h2, by simp [execCue, hc, h2]⟩

/-- C7 (witness): the theorem applied to a Start-type control cue whose
target id "zz" resolves to no cue. -/
theorem c7_witness :
    hasValidTarget (plainState [c7Ctl]).cues c7Ctl.base = false ∧
    Cue.canExecute (plainState [c7Ctl]).cues c7Ctl = false ∧
    execCue 1 (plainState [c7Ctl]) [0] = (plainState [c7Ctl], false, false) :=
  c7_theorem 0 (plainState [c7Ctl]) [0] c7Ctl.base 0
    (by with_unfolding_all rfl) (by decide)
    (by with_unfolding_all rfl)

/-- C9: when `createCue` succeeds on an empty cue list, the collection
afterwards holds exactly the new cue and that cue has automatically
become the standby cue (`cues_.size() == 1` triggers
`setStandByCue(cue->id())`). -/
theorem c9_theorem (st : MState) (t : CueType) (index : Int) (newId : String)
    (hempty : st.cues = [])
    (hok : (createCue st t index newId).2.isSome) :
    (createCue st t index newId).1.standByCueId = newId ∧
    (createCue st t index newId).1.cues.map Cue.cid = [newId] := by
  match hf : freshCue t newId with
  | none => simp [createCue, hf] at hok
  | some cue =>
    obtain ⟨cues, sel, act, exp, stby, ip, huc, w, e⟩ := st
    dsimp only at hempty
    subst hempty
    have hid : ((cue.withBase
        (·.setNumber (generateCueNumber ([] : List Cue)))).cid) = newId := by
      rw [Cue.withBase_cid _ _ (fun b => CueBase.setNumber_id b _)]
      exact freshCue_cid hf
    simp only [createCue, hf, List.length_nil, Nat.cast_zero, List.nil_append]
    rw [if_pos (show index < 0 ∨ (0 : Int) ≤ index from by omega)]
    simp [MState.markUnsaved, setStandByCue_standByCueId, setStandByCue_cues,
      hid]

/-- C9 (witness): the theorem applied to `createCue(Audio, -1)` on the
empty workspace. -/
theorem c9_witness :
    (createCue (plainState []) .audio (-1) "n1").1.standByCueId = "n1" ∧
    (createCue (plainState []) .audio (-1) "n1").1.cues.map Cue.cid
      = ["n1"] :=
  c9_theorem (plainState []) .audio (-1) "n1" rfl
    (by with_unfolding_all rfl)

/-! ### Shape-preservation layer for C10

`Pres st st'` says a step kept the top-level id sequence and the
selection; the selection-validity invariant transports along it. -/

theorem Pres.refl (st : MState) : Pres st st := ⟨rfl, rfl⟩

theorem Pres.trans {s1 s2 s3 : MState} (h1 : Pres s1 s2) (h2 : Pres s2 s3) :
    Pres s1 s3 :=
  ⟨h2.1.trans h1.1, h2.2.trans h1.2⟩

theorem selInv_of_pres {st st' : MState} (h : Pres st st') (hi : SelInv st) :
    SelInv st' := by
  intro cueId hm
  rw [h.1]
  exact hi cueId (h.2 ▸ hm)

theorem cueStop_cid (fadeTime : ℚ) (c : Cue) :
    (cueStop fadeTime c).cid = c.cid := by
  cases c with
  | audioCue b a =>
      simp only [cueStop]
      split
      · rfl
      · simp [Cue.cid, Cue.base, CueBase.setStatus_id]
  | waitCue b r => simp [cueStop, Cue.cid, Cue.base, CueBase.setStatus_id]
  | controlCue b ft => simp [cueStop, Cue.cid, Cue.base, CueBase.setStatus_id]
  | groupCue b m ch ci act =>
      simp [cueStop, Cue.cid, Cue.base, CueBase.setStatus_id]

theorem cuePause_cid (c : Cue) : (cuePause c).cid = c.cid := by
  cases c with
  | audioCue b a =>
      simp only [cuePause]
      split
      · rfl
      · simp [Cue.cid, Cue.base, CueBase.setStatus_id]
  | waitCue b r =>
      simp only [cuePause]
      split
      · simp [Cue.cid, Cue.base, CueBase.setStatus_id]
      · rfl
  | controlCue b ft =>
      simp only [cuePause]
      split
      · simp [Cue.cid, Cue.base, CueBase.setStatus_id]
      · rfl
  | groupCue b m ch ci act =>
      simp [cuePause, Cue.cid, Cue.base, CueBase.setStatus_id]

theorem cueResume_cid (c : Cue) : (cueResume c).cid = c.cid := by
  cases c with
  | audioCue b a =>
      simp only [cueResume]
      split
      · rfl
      · simp [Cue.cid, Cue.base, CueBase.setStatus_id]
  | waitCue b r =>
      simp only [cueResume]
      split
      · simp [Cue.cid, Cue.base, CueBase.setStatus_id]
      · rfl
  | controlCue b ft =>
      simp only [cueResume]
      split
      · simp [Cue.cid, Cue.base, CueBase.setStatus_id]
      · rfl
  | groupCue b m ch ci act =>
      simp [cueResume, Cue.cid, Cue.base, CueBase.setStatus_id]

theorem map_cid_updateCueById (l : List Cue) (cueId : String)
    (f : Cue → Cue) (h : ∀ c, (f c).cid = c.cid) :
    (updateCueById l cueId f).map Cue.cid = l.map Cue.cid := by
  simp only [updateCueById, List.map_map]
  refine List.map_congr_left (fun c _ => ?_)
  by_cases hc : c.cid = cueId <;> simp [hc, h]

theorem map_cid_modifyIdx (l : List Cue) (i : Nat) (f : Cue → Cue)
    (h : ∀ c, l.get? i = some c → (f c).cid = c.cid) :
    (modifyIdx l i f).map Cue.cid = l.map Cue.cid := by
  induction l generalizing i with
  | nil => rfl
  | cons x xs ih =>
      cases i with
      | zero => simp [modifyIdx, h x rfl]
      | succ n =>
          simp only [modifyIdx, List.map_cons, List.cons.injEq, true_and]
          exact ih n (fun c hc => h c hc)

theorem map_cid_setAtPath (l : List Cue) (p : List Nat) (f : Cue → Cue)
    (h : ∀ c, getAtPath l p = some c → (f c).cid = c.cid) :
    (setAtPath l p f).map Cue.cid = l.map Cue.cid := by
  match p with
  | [] => rfl
  | [i] => exact map_cid_modifyIdx l i f h
  | i :: j :: rest =>
      refine map_cid_modifyIdx l i _ (fun c _ => ?_)
      cases c <;> rfl

/-- `setAtPath` with an unconditionally id-preserving mutation. -/
theorem map_cid_setAtPath' (l : List Cue) (p : List Nat) (f : Cue → Cue)
    (h : ∀ c, (f c).cid = c.cid) :
    (setAtPath l p f).map Cue.cid = l.map Cue.cid :=
  map_cid_setAtPath l p f (fun c _ => h c)

theorem withBase_setStatus_cid (s : CueStatus) (c : Cue) :
    (c.withBase (·.setStatus s)).cid = c.cid :=
  Cue.withBase_cid c _ (fun b => CueBase.setStatus_id b s)

theorem withBase_setArmed_cid (v : Bool) (c : Cue) :
    (c.withBase (·.setArmed v)).cid = c.cid :=
  Cue.withBase_cid c _ (fun b => CueBase.setArmed_id b v)

theorem pres_warn (st : MState) (m : String) : Pres st (st.warn m) :=
  ⟨rfl, rfl⟩

theorem pres_err (st : MState) (m : String) : Pres st (st.err m) :=
  ⟨rfl, rfl⟩

theorem pres_setStandByCue (st : MState) (i : String) :
    Pres st (setStandByCue st i) := by
  unfold setStandByCue; split
  · exact Pres.refl st
  · exact ⟨rfl, rfl⟩

theorem pres_managerNextCue (st : MState) : Pres st (managerNextCue st) := by
  unfold managerNextCue
  dsimp only
  split
  · exact Pres.refl st
  · split
    · split
      · exact pres_setStandByCue st _
      · exact Pres.refl st
    · exact Pres.refl st

theorem pres_managerPreviousCue (st : MState) :
    Pres st (managerPreviousCue st) := by
  unfold managerPreviousCue
  dsimp only
  split
  · exact Pres.refl st
  · split
    · split
      · exact pres_setStandByCue st _
      · exact Pres.refl st
    · split
      · split
        · exact pres_setStandByCue st _
        · exact Pres.refl st
      · exact Pres.refl st

theorem map_cid_pauseFold (p : Bool) (ids : List String) (cs : List Cue) :
    (ids.foldl (fun cs2 cueId =>
      match getCue cs2 cueId with
      | none => cs2
      | some _ =>
          updateCueById cs2 cueId (fun c =>
            if p then (cuePause c).withBase (·.setStatus .paused)
            else (cueResume c).withBase (·.setStatus .running))) cs).map
      Cue.cid = cs.map Cue.cid := by
  induction ids generalizing cs with
  | nil => rfl
  | cons x xs ih =>
      simp only [List.foldl_cons]
      cases hg : getCue cs x
      · simp only [hg]
        exact ih _
      · simp only [hg]
        rw [ih]
        apply map_cid_updateCueById
        intro c
        split
        · exact (withBase_setStatus_cid _ _).trans (cuePause_cid c)
        · exact (withBase_setStatus_cid _ _).trans (cueResume_cid c)

theorem pres_managerPause (st : MState) : Pres st (managerPause st) := by
  unfold managerPause
  dsimp only
  split
  · exact Pres.refl st
  · exact ⟨map_cid_pauseFold (!st.isPaused) st.activeCues st.cues, rfl⟩

theorem pres_managerOnCueFinished (st : MState) (cueId : String) :
    Pres st (managerOnCueFinished st cueId) := by
  unfold managerOnCueFinished
  split
  · exact Pres.refl st
  · have h1 : Pres st { st with
        activeCues := qsetRemove st.activeCues cueId,
        cues := updateCueById st.cues cueId
          (·.withBase (·.setStatus .finished)) } :=
      ⟨map_cid_updateCueById _ _ _ (withBase_setStatus_cid _), rfl⟩
    split
    · exact h1.trans (pres_managerNextCue _)
    · exact h1

theorem pres_managerStopCue (st : MState) (cueId : String) (ft : ℚ) :
    Pres st (managerStopCue st cueId ft) := by
  unfold managerStopCue
  split
  · exact Pres.refl st
  · refine ⟨?_, rfl⟩
    simp only
    rw [map_cid_updateCueById _ _ _ (withBase_setStatus_cid _),
      map_cid_updateCueById _ _ _ (cueStop_cid ft)]

theorem pres_managerStop (st : MState) : Pres st (managerStop st) := by
  have h : ∀ (ids : List String) (s : MState),
      Pres s (ids.foldl (fun s2 cueId => managerStopCue s2 cueId 0) s) := by
    intro ids
    induction ids with
    | nil => exact fun s => Pres.refl s
    | cons x xs ih =>
        intro s
        simp only [List.foldl_cons]
        exact (pres_managerStopCue s x 0).trans (ih _)
  unfold managerStop
  exact Pres.trans (h st.activeCues st) ⟨rfl, rfl⟩

theorem map_cid_panicFold (ids : List String) (cs : List Cue) :
    (ids.foldl (fun cs2 cueId =>
      match getCue cs2 cueId with
      | none => cs2
      | some _ =>
          updateCueById cs2 cueId (fun c =>
            (cueStop 0 c).withBase (·.setStatus .loaded))) cs).map Cue.cid
      = cs.map Cue.cid := by
  induction ids generalizing cs with
  | nil => rfl
  | cons x xs ih =>
      simp only [List.foldl_cons]
      cases hg : getCue cs x
      · simp only [hg]
        exact ih _
      · simp only [hg]
        rw [ih]
        apply map_cid_updateCueById
        intro c
        exact (withBase_setStatus_cid _ _).trans (cueStop_cid 0 c)

theorem pres_managerPanic (st : MState) : Pres st (managerPanic st) := by
  unfold managerPanic
  dsimp only
  exact ⟨map_cid_panicFold st.activeCues st.cues, rfl⟩

theorem pres_setAtPath (st : MState) (p : List Nat) (f : Cue → Cue)
    (h : ∀ c, getAtPath st.cues p = some c → (f c).cid = c.cid) :
    Pres st { st with cues := setAtPath st.cues p f } :=
  ⟨map_cid_setAtPath _ _ _ h, rfl⟩

theorem pres_setAtPath' (st : MState) (p : List Nat) (f : Cue → Cue)
    (h : ∀ c, (f c).cid = c.cid) :
    Pres st { st with cues := setAtPath st.cues p f } :=
  ⟨map_cid_setAtPath' _ _ _ h, rfl⟩

theorem pres_updateCueById (st : MState) (cueId : String) (f : Cue → Cue)
    (h : ∀ c, (f c).cid = c.cid) :
    Pres st { st with cues := updateCueById st.cues cueId f } :=
  ⟨map_cid_updateCueById _ _ _ h, rfl⟩

set_option maxHeartbeats 1600000 in
/-- Execution never adds, removes, reorders or re-identifies top-level
cues, and never touches the selection: the whole `execute()` interpreter
satisfies `Pres`, at every fuel. -/
theorem execPresAll : ∀ fuel : Nat,
    (∀ st p, Pres st (execCue fuel st p).1) ∧
    (∀ st p, Pres st (execSeqNext fuel st p).1) ∧
    (∀ st p i em, Pres st (execParFrom fuel st p i em).1) ∧
    (∀ st p childId, Pres st (groupChildFinished fuel st p childId).1) ∧
    (∀ st b ft, Pres st (controlPerform fuel st b ft)) := by
  intro fuel
  induction fuel with
  | zero =>
      exact ⟨fun st _ => Pres.refl st, fun st _ => Pres.refl st,
        fun st _ _ _ => Pres.refl st, fun st _ _ => Pres.refl st,
        fun st _ _ => Pres.refl st⟩
  | succ n ih =>
      obtain ⟨ihE, ihS, ihP, ihG, ihC⟩ := ih
      have hGroupRun : ∀ c : Cue,
          ((fun c => match c with
            | Cue.groupCue b2 m2 ch2 _ _ =>
                Cue.groupCue (b2.setStatus .running) m2 ch2 (-1) []
            | other => other) c).cid = c.cid := by
        intro c
        cases c <;> simp [Cue.cid, Cue.base, CueBase.setStatus_id]
      have hCursor : ∀ (ci' : Int) (c : Cue),
          ((fun c => match c with
            | Cue.groupCue b2 m2 ch2 _ act2 => Cue.groupCue b2 m2 ch2 ci' act2
            | other => other) c).cid = c.cid := by
        intro ci' c
        cases c <;> simp [Cue.cid, Cue.base]
      have hInsert : ∀ (cid2 : String) (c : Cue),
          ((fun c => match c with
            | Cue.groupCue b2 m2 ch2 ci2 act2 =>
                Cue.groupCue b2 m2 ch2 ci2 (qsetInsert act2 cid2)
            | other => other) c).cid = c.cid := by
        intro cid2 c
        cases c <;> simp [Cue.cid, Cue.base]
      have hRemove : ∀ (cid2 : String) (c : Cue),
          ((fun c => match c with
            | Cue.groupCue b2 m2 ch2 ci2 act2 =>
                Cue.groupCue b2 m2 ch2 ci2 (qsetRemove act2 cid2)
            | other => other) c).cid = c.cid := by
        intro cid2 c
        cases c <;> simp [Cue.cid, Cue.base]
      have hWaitRun : ∀ c : Cue,
          ((fun c => match c with
            | Cue.waitCue b2 _ => Cue.waitCue (b2.setStatus .running) b2.duration
            | other => other) c).cid = c.cid := by
        intro c
        cases c <;> simp [Cue.cid, Cue.base, CueBase.setStatus_id]
      have hC : ∀ st b ft, Pres st (controlPerform (n + 1) st b ft) := by
        intro st b ft
        show Pres st (controlPerform (Nat.succ n) st b ft)
        rw [controlPerform]
        cases b.type
        case start =>
          cases ht : targetCue st.cues b
          · exact pres_err st _
          · simp only
            split
            · split
              · exact ihE st _
              · exact Pres.refl st
            · exact pres_warn st _
        case stop =>
          cases ht : targetCue st.cues b
          · exact pres_err st _
          · exact pres_updateCueById st _ _ (cueStop_cid ft)
        case goto =>
          cases ht : targetCue st.cues b
          · exact pres_err st _
          · exact pres_setStandByCue st _
        case pause =>
          simp only
          split
          · cases ht : targetCue st.cues b
            · exact Pres.refl st
            · simp only
              split
              · exact pres_updateCueById st _ _ cuePause_cid
              · split
                · exact pres_updateCueById st _ _ cueResume_cid
                · exact Pres.refl st
          · exact pres_managerPause st
        case load =>
          cases ht : targetCue st.cues b
          · exact pres_err st _
          · exact pres_setStandByCue st _
        case reset =>
          cases ht : targetCue st.cues b
          · exact pres_err st _
          · exact (pres_updateCueById st _ _ (cueStop_cid 0)).trans
              (pres_updateCueById _ _ _ (withBase_setStatus_cid _))
        case arm =>
          cases ht : targetCue st.cues b
          · exact pres_err st _
          · exact pres_updateCueById st _ _ (withBase_setArmed_cid _)
        case disarm =>
          cases ht : targetCue st.cues b
          · exact pres_err st _
          · exact pres_updateCueById st _ _ (withBase_setArmed_cid _)
        case devamp =>
          cases ht : targetCue st.cues b
          · exact pres_err st _
          · exact pres_updateCueById st _ _ (cueStop_cid _)
        all_goals exact Pres.refl st
      have hG : ∀ st p childId,
          Pres st (groupChildFinished (n + 1) st p childId).1 := by
        intro st p childId
        show Pres st (groupChildFinished (Nat.succ n) st p childId).1
        rw [groupChildFinished]
        have h1 : Pres st { st with
            cues := setAtPath st.cues p (fun c => match c with
              | Cue.groupCue b2 m2 ch2 ci2 act2 =>
                  Cue.groupCue b2 m2 ch2 ci2 (qsetRemove act2 childId)
              | other => other) } :=
          pres_setAtPath' st p _ (hRemove childId)
        simp only
        split
        · split
          · exact h1.trans (ihS _ _)
          · split
            · exact h1.trans (pres_setAtPath' _ p _ (withBase_setStatus_cid _))
            · exact h1
        · exact h1
      have hS : ∀ st p, Pres st (execSeqNext (n + 1) st p).1 := by
        intro st p
        show Pres st (execSeqNext (Nat.succ n) st p).1
        rw [execSeqNext]
        split
        · next b m children ci act heq =>
            have h1 : Pres st { st with
                cues := setAtPath st.cues p (fun c => match c with
                  | Cue.groupCue b2 m2 ch2 _ act2 =>
                      Cue.groupCue b2 m2 ch2 (ci + 1) act2
                  | other => other) } :=
              pres_setAtPath' st p _ (hCursor (ci + 1))
            simp only
            split
            · exact h1.trans (pres_setAtPath' _ p _ (withBase_setStatus_cid _))
            · split
              · exact h1
              · split
                · exact h1.trans (ihS _ _)
                · split
                  · exact ((h1.trans (pres_setAtPath' _ p _ (hInsert _))).trans
                      (ihE _ _)).trans (ihG _ _ _)
                  · exact (h1.trans (pres_setAtPath' _ p _ (hInsert _))).trans
                      (ihE _ _)
        · exact Pres.refl st
      have hP : ∀ st p i em, Pres st (execParFrom (n + 1) st p i em).1 := by
        intro st p i em
        show Pres st (execParFrom (Nat.succ n) st p i em).1
        rw [execParFrom]
        split
        · next b m children ci act heq =>
            simp only
            split
            · split
              · exact ihP st _ _ _
              · split
                · exact (((pres_setAtPath' st p _ (hInsert _)).trans
                    (ihE _ _)).trans (ihG _ _ _)).trans (ihP _ _ _ _)
                · exact ((pres_setAtPath' st p _ (hInsert _)).trans
                    (ihE _ _)).trans (ihP _ _ _ _)
            · split
              · exact pres_setAtPath' st p _ (withBase_setStatus_cid _)
              · exact Pres.refl st
        · exact Pres.refl st
      refine ⟨?_, hS, hP, hG, hC⟩
      intro st p
      show Pres st (execCue (Nat.succ n) st p).1
      rw [execCue]
      split
      · exact Pres.refl st
      · next b a heq =>
          simp only
          split
          · exact Pres.refl st
          · split
            · exact Pres.refl st
            · split
              · exact Pres.refl st
              · split
                · exact Pres.refl st
                · split
                  · refine pres_setAtPath st p _ ?_
                    intro c hc
                    rw [heq] at hc
                    cases hc
                    simp [Cue.cid, Cue.base]
                  · split
                    · refine pres_setAtPath st p _ ?_
                      intro c hc
                      rw [heq] at hc
                      cases hc
                      split <;> simp [Cue.cid, Cue.base, CueBase.setDuration_id]
                    · refine pres_setAtPath st p _ ?_
                      intro c hc
                      rw [heq] at hc
                      cases hc
                      split <;>
                        simp [Cue.cid, Cue.base, CueBase.setDuration_id,
                          CueBase.setStatus_id]
      · next b r heq =>
          split
          · exact pres_warn st _
          · exact pres_setAtPath' st p _ hWaitRun
      · next b ft heq =>
          simp only
          split
          · exact Pres.refl st
          · have h1 : Pres st { st with
                cues := setAtPath st.cues p (·.withBase (·.setStatus .running)) } :=
              pres_setAtPath' st p _ (withBase_setStatus_cid _)
            split
            all_goals
              first
              | exact h1.trans ((ihC _ b ft).trans
                  (pres_setAtPath' _ p _ (withBase_setStatus_cid _)))
              | exact (h1.trans (pres_warn _ _)).trans
                  (pres_setAtPath' _ p _ (withBase_setStatus_cid _))
      · next b m children ci act heq =>
          simp only
          split
          · exact Pres.refl st
          · have h1 : Pres st { st with
                cues := setAtPath st.cues p (fun c => match c with
                  | .groupCue b2 m2 ch2 _ _ =>
                      Cue.groupCue (b2.setStatus .running) m2 ch2 (-1) []
                  | other => other) } :=
              pres_setAtPath' st p _ hGroupRun
            split
            · exact h1.trans (ihS _ _)
            · exact h1.trans (ihP _ _ _ _)

theorem pres_managerExecuteCue (fuel : Nat) (st : MState) (cueId : String) :
    Pres st (managerExecuteCue fuel st cueId) := by
  unfold managerExecuteCue
  split
  · exact Pres.refl st
  · next i _ =>
      split
      · exact Pres.refl st
      · split
        · exact Pres.refl st
        · dsimp only
          have h2 : Pres st
              { cues := setAtPath st.cues [i]
                  (Cue.withBase (·.setStatus .running))
                selectedCueIds := st.selectedCueIds
                activeCues := qsetInsert st.activeCues cueId
                expandedGroups := st.expandedGroups
                standByCueId := st.standByCueId
                isPaused := st.isPaused
                hasUnsavedChanges := st.hasUnsavedChanges
                warnings := st.warnings
                errors := st.errors } :=
            ⟨map_cid_setAtPath' _ _ _ (withBase_setStatus_cid _), rfl⟩
          have h3 := h2.trans ((execPresAll fuel).1 _ [i])
          split
          · split
            · exact h3.trans (pres_managerOnCueFinished _ _)
            · exact h3
          · split
            · exact (h3.trans (pres_managerOnCueFinished _ _)).trans
                ⟨map_cid_updateCueById _ _ _ (withBase_setStatus_cid _), rfl⟩
            · exact h3.trans
                ⟨map_cid_updateCueById _ _ _ (withBase_setStatus_cid _), rfl⟩

theorem pres_go (fuel : Nat) (st : MState) : Pres st (go fuel st).1 := by
  unfold go
  split
  · exact pres_warn st _
  · dsimp only
    split
    · exact pres_warn st _
    · split
      · exact (pres_managerExecuteCue fuel st _).trans (pres_managerNextCue _)
      · exact pres_managerExecuteCue fuel st _

theorem getCue_mem_map {cues : List Cue} {cueId : String} {c : Cue}
    (h : getCue cues cueId = some c) : cueId ∈ cues.map Cue.cid := by
  unfold getCue at h
  have hmem := List.mem_of_find?_eq_some h
  have hp := List.find?_some h
  simp only [beq_iff_eq] at hp
  exact hp ▸ List.mem_map_of_mem Cue.cid hmem

theorem mem_map_cid_insertAt (l : List Cue) (i : Nat) (x : Cue)
    {cueId : String} (h : cueId ∈ l.map Cue.cid) :
    cueId ∈ (insertAt l i x).map Cue.cid := by
  unfold insertAt
  rw [← List.take_append_drop i l] at h
  simp only [List.map_append, List.mem_append, List.map_cons,
    List.mem_cons] at h ⊢
  tauto

theorem mem_map_cid_insertAt_self (l : List Cue) (i : Nat) (x : Cue) :
    x.cid ∈ (insertAt l i x).map Cue.cid := by
  unfold insertAt
  simp

theorem mem_map_cid_eraseIdx_or (l : List Cue) (i : Nat) (c0 : Cue)
    {cueId : String} (hg : l.get? i = some c0)
    (h : cueId ∈ l.map Cue.cid) :
    cueId ∈ (l.eraseIdx i).map Cue.cid ∨ cueId = c0.cid := by
  induction l generalizing i with
  | nil => simp at h
  | cons y ys ih =>
      cases i with
      | zero =>
          simp only [List.get?_cons_zero, Option.some.injEq] at hg
          subst hg
          simp only [List.map_cons, List.mem_cons] at h
          rcases h with h | h
          · exact Or.inr h
          · exact Or.inl (by simpa [List.eraseIdx] using h)
      | succ n =>
          simp only [List.get?_cons_succ] at hg
          simp only [List.map_cons, List.mem_cons] at h
          rcases h with h | h
          · exact Or.inl (by simp [List.eraseIdx, h])
          · rcases ih n hg h with h2 | h2
            · exact Or.inl (by simp [List.eraseIdx, h2])
            · exact Or.inr h2

theorem mem_map_cid_splice (l extra : List Cue) (k : Nat) {cueId : String}
    (h : cueId ∈ l.map Cue.cid) :
    cueId ∈ (l.take k ++ extra ++ l.drop k).map Cue.cid := by
  rw [← List.take_append_drop k l] at h
  simp only [List.map_append, List.mem_append] at h ⊢
  tauto

theorem map_cid_mapIdx (f : Nat → Cue → Cue)
    (hf : ∀ i c, (f i c).cid = c.cid) (l : List Cue) :
    (l.mapIdx f).map Cue.cid = l.map Cue.cid := by
  induction l generalizing f with
  | nil => rfl
  | cons x xs ih =>
      rw [List.mapIdx_cons]
      simp only [List.map_cons, hf]
      rw [ih (fun i => f (i + 1)) (fun i c => hf (i + 1) c)]

/-! ### Per-operation preservation of the selection invariant (C10) -/

theorem qsetRemove_mem {l : List String} {x y : String}
    (h : x ∈ qsetRemove l y) : x ∈ l ∧ x ≠ y := by
  unfold qsetRemove at h
  refine ⟨List.mem_of_mem_filter h, ?_⟩
  have h2 := List.of_mem_filter h
  simpa using h2

theorem selInv_markUnsaved {st : MState} (h : SelInv st) :
    SelInv st.markUnsaved := h

theorem mem_map_cid_append (l : List Cue) (x : Cue) {cueId : String}
    (h : cueId ∈ l.map Cue.cid) : cueId ∈ (l ++ [x]).map Cue.cid := by
  rw [List.map_append]
  exact List.mem_append_left _ h

theorem removeCueStandbyFix_cues (st : MState) (cueId : String)
    (index : Int) : (removeCueStandbyFix st cueId index).cues = st.cues := by
  unfold removeCueStandbyFix
  dsimp only
  split
  · split
    · split
      · split
        · rw [setStandByCue_cues]
        · rfl
      · rfl
    · rfl
  · rfl

theorem removeCueStandbyFix_sel (st : MState) (cueId : String)
    (index : Int) :
    (removeCueStandbyFix st cueId index).selectedCueIds =
      st.selectedCueIds := by
  unfold removeCueStandbyFix
  dsimp only
  split
  · split
    · split
      · split
        · rw [(pres_setStandByCue _ _).2]
        · rfl
      · rfl
    · rfl
  · rfl

theorem managerStopCue_sel (st : MState) (cueId : String) (ft : ℚ) :
    (managerStopCue st cueId ft).selectedCueIds = st.selectedCueIds :=
  (pres_managerStopCue st cueId ft).2

theorem get?_cid_of_map_cid_eq {l l2 : List Cue}
    (hmap : l2.map Cue.cid = l.map Cue.cid) {i : Nat} {c0 : Cue}
    (hget : l.get? i = some c0) :
    ∃ c1, l2.get? i = some c1 ∧ c1.cid = c0.cid := by
  have h := congrArg (fun ll => ll.get? i) hmap
  simp only [List.get?_map, hget, Option.map_some'] at h
  rcases h2 : l2.get? i with _ | c1
  · rw [h2] at h
    simp at h
  · rw [h2] at h
    simp only [Option.map_some', Option.some.injEq] at h
    exact ⟨c1, rfl, h⟩

/-- The index `getCueIndex` reports for a cue `getCue` finds is a valid
position holding a cue with the looked-up id. -/
theorem getCueIndex_spec {cues : List Cue} {cueId : String} {c : Cue}
    (hg : getCue cues cueId = some c) :
    ∃ i : Nat, getCueIndex cues cueId = (i : Int) ∧
      ∃ c0, cues.get? i = some c0 ∧ c0.cid = cueId := by
  rcases hfi : cues.findIdx? (fun c2 => c2.cid == cueId) with _ | i
  · exfalso
    have hall := List.findIdx?_eq_none_iff.1 hfi
    have hm := List.mem_of_find?_eq_some hg
    have hp := List.find?_some hg
    rw [hall c hm] at hp
    exact Bool.false_ne_true hp
  · obtain ⟨hlen, hpi, -⟩ := List.findIdx?_eq_some_iff_getElem.1 hfi
    refine ⟨i, by simp [getCueIndex, hfi], cues[i], ?_, ?_⟩
    · rw [List.get?_eq_getElem?]
      exact List.getElem?_eq_getElem hlen
    · simpa using hpi

theorem emptyGroupShell_cid (c : Cue) :
    (emptyGroupShell c).cid = c.cid := by
  cases c with
  | audioCue b a => rfl
  | waitCue b r => rfl
  | controlCue b ft => rfl
  | groupCue b m ch ci act =>
      simp [emptyGroupShell, Cue.cid, Cue.base, CueBase.setDuration_id]

theorem pres_setGroupExpanded (st : MState) (groupId : String)
    (expanded : Bool) : Pres st (setGroupExpanded st groupId expanded) := by
  unfold setGroupExpanded
  split <;> exact ⟨rfl, rfl⟩

theorem selInv_append_getCue {st : MState} {cueId : String} {c : Cue}
    (hi : SelInv st) (hg : getCue st.cues cueId = some c) :
    SelInv { st with selectedCueIds := st.selectedCueIds ++ [cueId] } := by
  intro x hx
  rcases List.mem_append.1 hx with h | h
  · exact hi x h
  · rw [List.mem_singleton] at h
    subst h
    exact getCue_mem_map hg

theorem selInv_selectCue (st : MState) (cueId : String) (co : Bool)
    (hi : SelInv st) : SelInv (selectCue st cueId co) := by
  unfold selectCue
  split
  · exact hi
  · next c hg =>
      dsimp only
      cases co with
      | false =>
          rw [if_neg (show ¬ false = true by simp)]
          split
          · exact hi
          · exact selInv_append_getCue hi hg
      | true =>
          rw [if_pos (show true = true from rfl)]
          split
          · intro x hx
            exact absurd hx (List.not_mem_nil x)
          · intro x hx
            rcases List.mem_append.1 hx with h | h
            · exact absurd h (List.not_mem_nil x)
            · rw [List.mem_singleton] at h
              subst h
              exact getCue_mem_map hg

theorem selInv_addToSelection (st : MState) (cueId : String)
    (hi : SelInv st) : SelInv (addToSelection st cueId) := by
  unfold addToSelection
  split
  · exact hi
  · next c hg =>
      split
      · exact hi
      · exact selInv_append_getCue hi hg

theorem selInv_removeFromSelection (st : MState) (cueId : String)
    (hi : SelInv st) : SelInv (removeFromSelection st cueId) := by
  intro x hx
  exact hi x (qsetRemove_mem hx).1

theorem selInv_toggleSelection (st : MState) (cueId : String)
    (hi : SelInv st) : SelInv (toggleSelection st cueId) := by
  unfold toggleSelection
  split
  · exact selInv_removeFromSelection st cueId hi
  · exact selInv_addToSelection st cueId hi

theorem selInv_selectRange (st : MState) (startId endId : String)
    (hi : SelInv st) : SelInv (selectRange st startId endId) := by
  unfold selectRange
  dsimp only
  split
  · exact hi
  · intro x hx
    obtain ⟨c, hc, rfl⟩ := List.mem_map.1 hx
    exact List.mem_map_of_mem Cue.cid
      (List.mem_of_mem_drop (List.mem_of_mem_take hc))

theorem selInv_selectAll (st : MState) : SelInv (selectAll st) :=
  fun x hx => hx

theorem selInv_clearSelection (st : MState) : SelInv (clearSelection st) := by
  unfold clearSelection
  split
  · next h =>
      intro x hx
      rw [List.isEmpty_iff.1 h] at hx
      exact absurd hx (List.not_mem_nil x)
  · intro x hx
    exact absurd hx (List.not_mem_nil x)

/-- Replacing the cue list with a superset of the ids keeps the
invariant (also across the `markUnsaved` flag flip). -/
theorem selInv_set_cues {st : MState} {cues2 : List Cue}
    (h : ∀ x ∈ st.cues.map Cue.cid, x ∈ cues2.map Cue.cid)
    (hi : SelInv st) :
    SelInv (MState.markUnsaved { st with cues := cues2 }) :=
  fun x hx => h x (hi x hx)

theorem selInv_createCue (st : MState) (t : CueType) (index : Int)
    (newId : String) (hi : SelInv st) :
    SelInv (createCue st t index newId).1 := by
  unfold createCue
  split
  · exact hi
  · next cue hf =>
      dsimp only
      split
      all_goals split
      all_goals first
        | exact selInv_of_pres (pres_setStandByCue _ _)
            (selInv_set_cues (fun x hx => mem_map_cid_append _ _ hx) hi)
        | exact selInv_set_cues (fun x hx => mem_map_cid_append _ _ hx) hi
        | exact selInv_of_pres (pres_setStandByCue _ _)
            (selInv_set_cues (fun x hx => mem_map_cid_insertAt _ _ _ hx) hi)
        | exact selInv_set_cues (fun x hx => mem_map_cid_insertAt _ _ _ hx) hi

theorem selInv_removeCue (st : MState) (cueId : String) (hi : SelInv st) :
    SelInv (removeCue st cueId).1 := by
  unfold removeCue
  split
  · exact hi
  · split
    · exact hi
    · next c hg =>
        dsimp only
        obtain ⟨i, hidx, c0, hget0, hcid0⟩ := getCueIndex_spec hg
        simp only [hidx, Int.toNat_natCast, removeCueStandbyFix_cues,
          removeCueStandbyFix_sel]
        split
        · intro x hx
          obtain ⟨hx1, hne⟩ := qsetRemove_mem hx
          rw [managerStopCue_sel] at hx1
          have hmem2 : x ∈ (managerStopCue st cueId 0).cues.map Cue.cid := by
            rw [(pres_managerStopCue st cueId 0).1]
            exact hi x hx1
          obtain ⟨c1, hget1, hcid1⟩ :=
            get?_cid_of_map_cid_eq (pres_managerStopCue st cueId 0).1 hget0
          rcases mem_map_cid_eraseIdx_or (managerStopCue st cueId 0).cues i
            c1 hget1 hmem2 with h | h
          · exact h
          · exact absurd (h.trans (hcid1.trans hcid0)) hne
        · intro x hx
          obtain ⟨hx1, hne⟩ := qsetRemove_mem hx
          rcases mem_map_cid_eraseIdx_or st.cues i c0 hget0 (hi x hx1)
            with h | h
          · exact h
          · exact absurd (h.trans hcid0) hne

theorem selInv_removeAllCues (st : MState) : SelInv (removeAllCues st) := by
  intro x hx
  exact absurd hx (List.not_mem_nil x)

theorem selInv_duplicateCue (st : MState) (cueId newId : String)
    (hi : SelInv st) : SelInv (duplicateCue st cueId newId).1 := by
  unfold duplicateCue
  split
  · exact hi
  · dsimp only
    intro x hx
    exact mem_map_cid_insertAt _ _ _ (hi x hx)

theorem selInv_renameCue (st : MState) (cueId newNumber : String)
    (hi : SelInv st) : SelInv (renameCue st cueId newNumber).1 := by
  unfold renameCue
  split
  · exact hi
  · intro x hx
    have h := hi x hx
    rw [← map_cid_updateCueById st.cues cueId
      (·.withBase (·.setNumber newNumber))
      (fun c => Cue.withBase_cid c _
        (fun b => CueBase.setNumber_id b newNumber))] at h
    exact h

theorem selInv_renumberAllCues (st : MState) (hi : SelInv st) :
    SelInv (renumberAllCues st) := by
  intro x hx
  have h := hi x hx
  rw [← map_cid_mapIdx (fun i c =>
      c.withBase (·.setNumber (toString (i + 1))))
    (fun i c => Cue.withBase_cid c _
      (fun b => CueBase.setNumber_id b (toString (i + 1)))) st.cues] at h
  exact h

theorem selInv_moveCue (st : MState) (cueId : String) (newIndex : Int)
    (hi : SelInv st) : SelInv (moveCue st cueId newIndex).1 := by
  unfold moveCue
  dsimp only
  split
  · exact hi
  · split
    · exact hi
    · split
      · exact hi
      · split
        · exact hi
        · next cue hget =>
            intro x hx
            rcases mem_map_cid_eraseIdx_or st.cues
              (getCueIndex st.cues cueId).toNat cue hget (hi x hx)
              with h | h
            · exact mem_map_cid_insertAt _ _ _ h
            · rw [h]
              exact mem_map_cid_insertAt_self _ _ _

theorem selInv_moveCueUp (st : MState) (cueId : String) (hi : SelInv st) :
    SelInv (moveCueUp st cueId).1 := by
  unfold moveCueUp
  dsimp only
  split
  · exact hi
  · exact selInv_moveCue st cueId _ hi

theorem selInv_moveCueDown (st : MState) (cueId : String)
    (hi : SelInv st) : SelInv (moveCueDown st cueId).1 := by
  unfold moveCueDown
  dsimp only
  split
  · exact hi
  · exact selInv_moveCue st cueId _ hi

theorem selInv_createGroupFromSelection (st : MState)
    (groupName newGroupId : String) (hi : SelInv st) :
    SelInv (createGroupFromSelection st groupName newGroupId).1 := by
  unfold createGroupFromSelection
  split
  · exact hi
  · dsimp only
    split
    · exact hi
    · split
      · exact hi
      · next f fs hfs =>
          split
          · next st1 heq =>
              have h1 := selInv_createCue st .group
                (getCueIndex st.cues f.cid) newGroupId hi
              rw [heq] at h1
              exact h1
          · next st1 gid heq =>
              dsimp only
              exact selInv_markUnsaved
                (selInv_selectCue _ gid true (selInv_clearSelection _))

theorem selInv_ungroupCue (st : MState) (groupId : String)
    (hi : SelInv st) : SelInv (ungroupCue st groupId).1 := by
  unfold ungroupCue
  split
  · exact hi
  · split
    · exact hi
    · next g hg =>
        split
        · exact hi
        · split
          · next b m children ci act heq =>
              dsimp only
              refine selInv_markUnsaved ?_
              refine selInv_removeCue _ groupId ?_
              intro x hx
              have h2 := mem_map_cid_splice st.cues children
                ((getCueIndex st.cues groupId).toNat + 1) (hi x hx)
              rw [← map_cid_updateCueById _ groupId emptyGroupShell
                emptyGroupShell_cid] at h2
              exact h2
          · exact hi

/-- C10: every `CueManager` command preserves the selection-validity
invariant — each id in `selectedCueIds` refers to a cue present in the
top-level `cues_` sequence.  In particular `selectCue` and
`addToSelection` are no-ops for an id `getCue` cannot find and only ever
append ids `getCue` resolved, and `removeCue` filters the removed id out
of the selection before shrinking the list. -/
theorem c10_theorem (op : MOp) (st : MState) (hi : SelInv st) :
    SelInv (applyOp op st) := by
  cases op with
  | opSelectCue cueId co => exact selInv_selectCue st cueId co hi
  | opAddToSelection cueId => exact selInv_addToSelection st cueId hi
  | opRemoveFromSelection cueId =>
      exact selInv_removeFromSelection st cueId hi
  | opToggleSelection cueId => exact selInv_toggleSelection st cueId hi
  | opSelectRange s e => exact selInv_selectRange st s e hi
  | opSelectAll => exact selInv_selectAll st
  | opClearSelection => exact selInv_clearSelection st
  | opCreateCue t index newId => exact selInv_createCue st t index newId hi
  | opRemoveCue cueId => exact selInv_removeCue st cueId hi
  | opRemoveAllCues => exact selInv_removeAllCues st
  | opDuplicateCue cueId newId =>
      exact selInv_duplicateCue st cueId newId hi
  | opRenameCue cueId newNumber =>
      exact selInv_renameCue st cueId newNumber hi
  | opRenumberAllCues => exact selInv_renumberAllCues st hi
  | opMoveCue cueId newIndex => exact selInv_moveCue st cueId newIndex hi
  | opMoveCueUp cueId => exact selInv_moveCueUp st cueId hi
  | opMoveCueDown cueId => exact selInv_moveCueDown st cueId hi
  | opCreateGroupFromSelection n g =>
      exact selInv_createGroupFromSelection st n g hi
  | opUngroupCue groupId => exact selInv_ungroupCue st groupId hi
  | opSetGroupExpanded groupId expanded =>
      exact selInv_of_pres (pres_setGroupExpanded st groupId expanded) hi
  | opSetStandByCue cueId =>
      exact selInv_of_pres (pres_setStandByCue st cueId) hi
  | opNextCue => exact selInv_of_pres (pres_managerNextCue st) hi
  | opPreviousCue => exact selInv_of_pres (pres_managerPreviousCue st) hi
  | opGo fuel => exact selInv_of_pres (pres_go fuel st) hi
  | opStop => exact selInv_of_pres (pres_managerStop st) hi
  | opStopCue cueId fadeTime =>
      exact selInv_of_pres (pres_managerStopCue st cueId fadeTime) hi
  | opPause => exact selInv_of_pres (pres_managerPause st) hi
  | opPanic => exact selInv_of_pres (pres_managerPanic st) hi
  | opMarkSaved => exact hi
  | opMarkUnsaved => exact hi

/-- C10 (witness): the invariant transported across a concrete command
on a concrete state. -/
theorem c10_witness :
    SelInv (applyOp (.opCreateCue .wait (-1) "w1") (plainState [])) :=
  c10_theorem (.opCreateCue .wait (-1) "w1") (plainState [])
    (fun x hx => absurd hx (List.not_mem_nil x))

end CueForge
